import Mathlib

/-!
# Risk check: question catalog, branch filter, routes and pages

A shallow embedding of the risk-check parts of the repository:

* `awareness/src/pages/Riskcheck.jsx`: the catalog `QUESTIONS`, the
  per-render list `filteredQuestions` and the handlers of the quiz;
* `awareness/src/pages/SessionDetails.jsx`: the recommendations section;
* `backend/src/middleware/auth.js`: the `protect` middleware;
* `backend/src/routes/risk.js`: the router with `POST /api/risk-check` and
  `GET /api/risk-check/progress`.

JavaScript values are embedded as the type `JsValue`; the operators the code
uses on them (`!`, `||`, `===`, property access, object spread) are embedded
one by one.
-/

set_option autoImplicit false

namespace Journey

/-! ## JavaScript values -/

/-- JavaScript values as they reach the code: `undefined`, and what a parsed
JSON text can hold. Numbers are the integers (no branch of the code modelled
here distinguishes a fraction from a nonzero integer). An object is its list
of own properties; the first entry for a key is the property's value. -/
inductive JsValue where
  | undefined : JsValue
  | null : JsValue
  | bool (b : Bool) : JsValue
  | number (n : Int) : JsValue
  | string (s : String) : JsValue
  | array (items : List JsValue) : JsValue
  | object (fields : List (String × JsValue)) : JsValue

namespace JsValue

/-- JavaScript truthiness (`ToBoolean`): `undefined`, `null`, `false`, `0`
and the empty string are falsy, everything else is truthy. -/
def truthy : JsValue → Bool
  | undefined => false
  | null => false
  | bool b => b
  | number n => n != 0
  | string s => s != ""
  | array _ => true
  | object _ => true

/-- Strict equality `a === b` where at least one side is a primitive. Two
object (or array) operands are equal only when they are the same reference;
no comparison in the code modelled here has an object on both sides, and the
embedding answers `false` there. -/
def strictEq : JsValue → JsValue → Bool
  | undefined, undefined => true
  | null, null => true
  | bool a, bool b => a == b
  | number a, number b => a == b
  | string a, string b => a == b
  | _, _ => false

/-- First value stored under `key` in a property list. -/
def lookup (key : String) : List (String × JsValue) → JsValue
  | [] => undefined
  | (k, v) :: rest => if k = key then v else lookup key rest

/-- Property read `v.key` (equally `v[key]`) for a data property: an object
yields the stored value or `undefined`; a primitive or an array has no such
own property and yields `undefined`. Reading a property of `undefined` or
`null` throws; the code embedded here does so only to the right of a
truthiness test of the same value, where the result is not looked at. -/
def get (v : JsValue) (key : String) : JsValue :=
  match v with
  | object fields => lookup key fields
  | _ => undefined

/-- Replace the value under `key`, or append the property when it is new. -/
def assign (key : String) (value : JsValue) : List (String × JsValue) → List (String × JsValue)
  | [] => [(key, value)]
  | (k, v) :: rest => if k = key then (k, value) :: rest else (k, v) :: assign key value rest

/-- Object spread with one computed key: `{ ...v, [key]: value }`. Spreading
a value that is not an object contributes no property. -/
def set (v : JsValue) (key : String) (value : JsValue) : JsValue :=
  match v with
  | object fields => object (assign key value fields)
  | _ => object [(key, value)]

/-- The operator `a || b`. -/
def or (a b : JsValue) : JsValue := if a.truthy then a else b

end JsValue

open JsValue

/-! ## The question catalog (`Riskcheck.jsx`, lines 6-16) -/

/-- One entry of `QUESTIONS`. A field the literal leaves out is `none`
(reading it gives `undefined`). -/
structure Question where
  id : String
  label : String
  type : String
  options : List String := []
  required : Bool
  min : Option Int := none
  max : Option Int := none
  appliesTo : Option String := none
  riskWeight : Option Nat := none
deriving DecidableEq, Repr

/-- The value read from an optional string field. -/
def optString : Option String → JsValue
  | none => JsValue.undefined
  | some s => JsValue.string s

/-- The catalog, in source order. -/
def QUESTIONS : List Question :=
  [ { id := "q_age", label := "1. What is your age?", type := "number",
      required := true, min := some 10, max := some 100 },
    { id := "q_sex", label := "2. What is your biological sex?", type := "select",
      options := ["Female", "Male"], required := true },
    { id := "q_lump",
      label := "3. Have you noticed any unexplained lump, swelling, or mass anywhere on your body?",
      type := "radio", options := ["No", "Yes"], required := true, riskWeight := some 25 },
    { id := "q_pain",
      label := "4. Do you have unexplained persistent pain in one area (e.g., chest, abdomen, back)?",
      type := "radio", options := ["No", "Yes"], required := true, riskWeight := some 10 },
    { id := "q_family",
      label := "5. Do you have a first-degree relative (parent, sibling, child) who has had cancer?",
      type := "radio", options := ["No", "Yes"], required := true, riskWeight := some 20 },
    { id := "q_bleeding",
      label := "6. (Female) Have you experienced unusual vaginal bleeding or post-menopausal bleeding?",
      type := "radio", options := ["No", "Yes"], required := false,
      appliesTo := some "Female", riskWeight := some 15 },
    { id := "q_urine_issue",
      label := "7. (Male) Have you had difficulty passing urine or noticed blood in your urine?",
      type := "radio", options := ["No", "Yes"], required := false,
      appliesTo := some "Male", riskWeight := some 10 } ]

/-- The filter callback of line 30:
`q => !q.appliesTo || q.appliesTo === answers.q_sex`. -/
def appliesToAnswers (answers : JsValue) (q : Question) : Bool :=
  !(optString q.appliesTo).truthy || strictEq (optString q.appliesTo) (answers.get "q_sex")

/-- The list `filteredQuestions` of lines 29-31, recomputed from the current
`answers` on every render. -/
def filteredQuestions (answers : JsValue) : List Question :=
  QUESTIONS.filter (appliesToAnswers answers)

/-- The claim's wording of applicability: the question has no `appliesTo`, or
its `appliesTo` equals `answers.q_sex`. -/
def AppliesPerClaim (answers : JsValue) (q : Question) : Prop :=
  q.appliesTo = none ∨ optString q.appliesTo = answers.get "q_sex"

/-- The ids of a list of questions, in order. -/
def questionIds (qs : List Question) : List String := qs.map (fun q => q.id)

/-! ## Evaluation (`utils/riskEngine`, required by `routes/risk.js` line 4)

The module is not among the sources. The route only reads the three fields
`riskLevel`, `score` and `recommendations` of what `evaluateRisk` returns and
treats a throw as a failure, so the route is embedded over an arbitrary
`evaluateRisk`. The definitions of this section follow §4.2 of the
specification and are used where a claim speaks about the evaluation itself.
-/

/-- The risk band; the pages compare `riskLevel` with these three names. -/
inductive RiskLevel where
  | LOW
  | MEDIUM
  | HIGH
deriving DecidableEq, Repr

/-- Position of a band in the order Low < Medium < High. -/
def RiskLevel.rank : RiskLevel → Nat
  | .LOW => 0
  | .MEDIUM => 1
  | .HIGH => 2

/-- An advisory entry. The specification fixes which entries are produced,
not their wording, so an entry is represented by what it is about. -/
inductive Recommendation where
  | urgentAction
  | general (band : RiskLevel)
  | targeted (questionId : String)
deriving DecidableEq, Repr

/-- The object `evaluateRisk` returns (destructured at line 29). -/
structure Evaluation where
  riskLevel : RiskLevel
  score : Nat
  recommendations : List Recommendation
deriving DecidableEq, Repr

/-- The two band boundaries, a deployment parameter of the specification. -/
structure Thresholds where
  low : Nat
  high : Nat
deriving DecidableEq, Repr

/-- Modelled from the spec: the risk-positive option of a scored question
(the catalog of the sources has no such field); every scored question of the
catalog is a No/Yes question and the specification names "Yes". -/
def riskAnswer : String := "Yes"

/-- Modelled from the spec: step 1 of §4.2 for the age, an integer within the
inclusive bounds of the catalog entry `q_age` (`min: 10, max: 100`). -/
def validAge : JsValue → Bool
  | .number n => decide (10 ≤ n) && decide (n ≤ 100)
  | _ => false

/-- Modelled from the spec: step 1 of §4.2 for the sex, one of the options of
the catalog entry `q_sex`. -/
def validSex : JsValue → Bool
  | .string s => s == "Female" || s == "Male"
  | _ => false

/-- Modelled from the spec: step 3 of §4.2, what one question adds to the
running total: its weight when it is scored and its answer equals the
risk-positive option, 0 otherwise. -/
def contribution (answers : JsValue) (q : Question) : Nat :=
  match q.riskWeight with
  | some w => if strictEq (answers.get q.id) (.string riskAnswer) then w else 0
  | none => 0

/-- Modelled from the spec: steps 2 and 3 of §4.2, the running total over the
applicable questions, taken in catalog order. -/
def totalScore (answers : JsValue) : Nat :=
  (filteredQuestions answers).foldl (fun total q => total + contribution answers q) 0

/-- Modelled from the spec: step 4 of §4.2, the thresholds evaluated low to
high, each boundary belonging to the higher band. -/
def riskBand (t : Thresholds) (score : Nat) : RiskLevel :=
  if score < t.low then .LOW
  else if score < t.high then .MEDIUM
  else .HIGH

/-- Modelled from the spec: the applicable scored questions answered with the
risk-positive option, in catalog order. -/
def firedQuestions (answers : JsValue) : List Question :=
  (filteredQuestions answers).filter (fun q => decide (0 < contribution answers q))

/-- Modelled from the spec: step 5 of §4.2, the general message of the band,
then one targeted entry per risk-positive answer; the High band puts the
urgent-action entry in front. -/
def recommendationsFor (band : RiskLevel) (fired : List Question) : List Recommendation :=
  (if band = .HIGH then [Recommendation.urgentAction] else [])
    ++ Recommendation.general band :: fired.map (fun q => Recommendation.targeted q.id)

/-- Modelled from the spec: `evaluateRisk` of `utils/riskEngine`, which is not
among the sources; §4.2 of the specification, steps 1 to 5. A failed
validation is a thrown error. -/
def evaluateRisk (t : Thresholds) (answers : JsValue) : Except String Evaluation :=
  if !validAge (answers.get "q_age") then .error "ValidationError: q_age"
  else if !validSex (answers.get "q_sex") then .error "ValidationError: q_sex"
  else
    let score := totalScore answers
    let band := riskBand t score
    .ok { riskLevel := band, score := score,
          recommendations := recommendationsFor band (firedQuestions answers) }

/-- The specification's complete answer set: the two demographic answers are
valid and every applicable question with options is answered with one of
them. -/
def Complete (answers : JsValue) : Prop :=
  validAge (answers.get "q_age") = true ∧ validSex (answers.get "q_sex") = true ∧
    ∀ q ∈ filteredQuestions answers, q.type = "radio" →
      q.options.any (fun opt => strictEq (answers.get q.id) (.string opt)) = true

instance (answers : JsValue) : Decidable (Complete answers) := by
  unfold Complete
  infer_instance

/-- The claim's wording of the score: the catalog questions that are
applicable, scored and answered "Yes", and the sum of their weights. -/
def riskPositiveQuestions (answers : JsValue) : List Question :=
  QUESTIONS.filter (fun q =>
    appliesToAnswers answers q && q.riskWeight.isSome && strictEq (answers.get q.id) (.string "Yes"))

/-- Sum of the catalog weights of `riskPositiveQuestions`. -/
def sumOfRiskWeights (answers : JsValue) : Nat :=
  ((riskPositiveQuestions answers).map (fun q => q.riskWeight.getD 0)).sum

/-! ## The session table (`models/RiskCheck`, required at line 5) -/

/-- The object literal handed to `RiskCheck.create` (lines 32-38). -/
structure NewRiskCheck where
  userId : JsValue
  answers : JsValue
  riskLevel : RiskLevel
  score : Nat
  recommendation : List Recommendation

/-- A stored session: the created values with the id and creation time the
table assigns. -/
structure Session where
  id : Nat
  userId : JsValue
  answers : JsValue
  riskLevel : RiskLevel
  score : Nat
  recommendation : List Recommendation
  createdAt : Nat

/-- The table: its rows in insertion order and the next id to hand out. -/
structure Store where
  sessions : List Session
  nextId : Nat

/-- Modelled from the spec: `RiskCheck.create` of `models/RiskCheck`, which is
not among the sources; `record` of §4.3: appends one session holding the
given values, assigns it the next id and the current time, and fails (a
rejected promise) only when the storage does. -/
def RiskCheck.create (available : Bool) (now : Nat) (store : Store) (values : NewRiskCheck) :
    Except String (Store × Session) :=
  if available then
    let created : Session :=
      { id := store.nextId, userId := values.userId, answers := values.answers,
        riskLevel := values.riskLevel, score := values.score,
        recommendation := values.recommendation, createdAt := now }
    .ok ({ sessions := store.sessions ++ [created], nextId := store.nextId + 1 }, created)
  else .error "PersistenceError"

/-- A row of the result of the history query: the four attributes the query
selects (line 72). -/
structure HistoryRow where
  id : Nat
  riskLevel : RiskLevel
  score : Nat
  createdAt : Nat
deriving DecidableEq, Repr

/-- The selected attributes of a stored session. -/
def Session.attributes (s : Session) : HistoryRow :=
  { id := s.id, riskLevel := s.riskLevel, score := s.score, createdAt := s.createdAt }

/-- The order `[['createdAt', 'DESC']]`: `a` may stand before `b` when it was
not created earlier. -/
def newerFirst (a b : Session) : Prop := b.createdAt ≤ a.createdAt

instance : DecidableRel newerFirst :=
  fun a b => inferInstanceAs (Decidable (b.createdAt ≤ a.createdAt))

instance : IsTotal Session newerFirst := ⟨fun a b => Nat.le_total b.createdAt a.createdAt⟩

instance : IsTrans Session newerFirst := ⟨fun _ _ _ hab hbc => Nat.le_trans hbc hab⟩

/-- Modelled from the spec: the rows the query of lines 69-73 selects and
their order; `historyFor` of §4.3: the stored sessions whose `userId` equals
the given one, newest first. Sessions created at the same time keep their
insertion order. -/
def ownedNewestFirst (store : Store) (userId : JsValue) : List Session :=
  (store.sessions.filter (fun s => strictEq s.userId userId)).insertionSort newerFirst

/-- Modelled from the spec: `RiskCheck.findAll` of `models/RiskCheck`, which
is not among the sources, for the query of lines 69-73: the rows of
`ownedNewestFirst`, reduced to the selected attributes. The query fails when
the storage does, and for an `undefined` where-value, which the query builder
refuses. -/
def RiskCheck.findAll (available : Bool) (store : Store) (userId : JsValue) :
    Except String (List HistoryRow) :=
  if !available then .error "PersistenceError"
  else
    match userId with
    | .undefined => .error "WHERE parameter userId has invalid undefined value"
    | _ => .ok ((ownedNewestFirst store userId).map Session.attributes)

/-- An entry of the `progress` array (lines 80-85). -/
structure ProgressEntry where
  id : Nat
  date : Nat
  risk : RiskLevel
  score : Nat
deriving DecidableEq, Repr

/-! ## The middleware `protect` (`middleware/auth.js`) -/

/-- What a handler is run against: the evaluation function, the token
verification of the `jsonwebtoken` library with the server secret (the
decoded payload, or `none` when it throws), the clock, and whether the
storage accepts an insert. -/
structure Env where
  evaluateRisk : JsValue → Except String Evaluation
  jwtVerify : String → Option JsValue
  now : Nat
  storeAvailable : Bool

/-- An incoming request: `req.headers.authorization` and `req.body`. -/
structure Request where
  authorization : Option String
  body : JsValue

/-- The JSON body of a response of the risk-check routes. -/
inductive ResponseBody where
  | message (text : String)
  | result (riskLevel : RiskLevel) (score : Nat) (recommendation : List Recommendation)
      (checkId : Nat) (message : String)
  | progress (entries : List ProgressEntry) (message : Option String)
  | unhandled

/-- The fields of `s.split(' ')`, on the characters of `s`. -/
def splitOnSpace : List Char → List (List Char)
  | [] => [[]]
  | c :: cs =>
    match splitOnSpace cs with
    | [] => if c = ' ' then [[], []] else [[c]]
    | w :: ws => if c = ' ' then [] :: w :: ws else (c :: w) :: ws

/-- The token `header.split(' ')[1]`: the second field, `undefined` when
there is none. -/
def secondField (header : String) : JsValue :=
  match splitOnSpace header.data with
  | _ :: w :: _ => .string (String.mk w)
  | _ => .undefined

/-- The call `jwt.verify(token, JWT_SECRET)`: the library throws for a token
that is missing, empty or not a string before looking at it. -/
def verifyToken (env : Env) : JsValue → Option JsValue
  | .string s => if s = "" then none else env.jwtVerify s
  | _ => none

/-- What `protect` did: it called `next` with `req.userId` set (and possibly
sent a response after that), or it sent a response and returned. -/
inductive ProtectResult where
  | next (userId : JsValue) (alsoSent : Option (Nat × String))
  | respond (status : Nat) (text : String)

/-- The middleware `protect` (lines 6-32). -/
def protect (env : Env) (req : Request) : ProtectResult :=
  let authorization := optString req.authorization
  if authorization.truthy && "Bearer".data.isPrefixOf (req.authorization.getD "").data then
    let token := secondField (req.authorization.getD "")
    match verifyToken env token with
    | some decoded =>
      .next (decoded.get "id")
        (if !token.truthy then some (401, "Not authorized, no token.") else none)
    | none => .respond 401 "Not authorized, token failed."
  else
    .respond 401 "Not authorized, no token."

/-! ## `POST /api/risk-check` (`routes/risk.js`, lines 12-55) -/

/-- The calls a handler made, in order. -/
inductive Effect where
  | evaluateRisk (answers : JsValue)
  | create (values : NewRiskCheck)
  | findAll (userId : JsValue)

/-- What handling a request produced: the response, the table afterwards and
the calls made. -/
structure Outcome where
  status : Nat
  body : ResponseBody
  store : Store
  effects : List Effect

/-- The route handler of lines 12-55, run with `req.userId` and `req.body`. -/
def postRiskCheck (env : Env) (store : Store) (reqUserId : JsValue) (reqBody : JsValue) : Outcome :=
  let userId := JsValue.or reqUserId .null
  let answers := reqBody
  if !answers.truthy || !(answers.get "q_age").truthy || !(answers.get "q_sex").truthy then
    { status := 400, body := .message "Missing required inputs (age and sex).",
      store := store, effects := [] }
  else
    match env.evaluateRisk answers with
    | .error _ =>
      { status := 500,
        body := .message "Internal server error while processing and saving session.",
        store := store, effects := [.evaluateRisk answers] }
    | .ok evaluation =>
      let values : NewRiskCheck :=
        { userId := userId, answers := answers, riskLevel := evaluation.riskLevel,
          score := evaluation.score, recommendation := evaluation.recommendations }
      match RiskCheck.create env.storeAvailable env.now store values with
      | .error _ =>
        { status := 500,
          body := .message "Internal server error while processing and saving session.",
          store := store, effects := [.evaluateRisk answers, .create values] }
      | .ok (store', newRiskCheck) =>
        { status := 201,
          body := .result evaluation.riskLevel evaluation.score evaluation.recommendations
            newRiskCheck.id "Risk assessment complete and session saved.",
          store := store', effects := [.evaluateRisk answers, .create values] }

/-- The row the handler has `RiskCheck.create` insert for an evaluation: the
values of lines 33-37 with the id and creation time the table assigns. -/
def sessionFor (env : Env) (store : Store) (reqUserId reqBody : JsValue)
    (evaluation : Evaluation) : Session :=
  { id := store.nextId, userId := JsValue.or reqUserId .null, answers := reqBody,
    riskLevel := evaluation.riskLevel, score := evaluation.score,
    recommendation := evaluation.recommendations, createdAt := env.now }

/-- The route `router.post('/', protect, handler)`: the handler runs when
`protect` calls `next`; otherwise the response is the one `protect` sent. -/
def postRoute (env : Env) (store : Store) (req : Request) : Outcome :=
  match protect env req with
  | .next userId _ => postRiskCheck env store userId req.body
  | .respond status text =>
    { status := status, body := .message text, store := store, effects := [] }

/-! ## `GET /api/risk-check/progress` (`routes/risk.js`, lines 64-93) -/

/-- The array `progressData` of lines 80-85. -/
def progressData (history : List HistoryRow) : List ProgressEntry :=
  history.map (fun session =>
    { id := session.id, date := session.createdAt, risk := session.riskLevel,
      score := session.score })

/-- The route handler of lines 64-93, run with `req.userId`. -/
def getProgress (env : Env) (store : Store) (reqUserId : JsValue) : Outcome :=
  let userId := reqUserId
  match RiskCheck.findAll env.storeAvailable store userId with
  | .error _ =>
    { status := 500, body := .message "Internal server error retrieving history.",
      store := store, effects := [.findAll userId] }
  | .ok history =>
    if history.length = 0 then
      { status := 200,
        body := .progress [] (some "No past risk sessions found for this user."),
        store := store, effects := [.findAll userId] }
    else
      { status := 200, body := .progress (progressData history) none,
        store := store, effects := [.findAll userId] }

/-- The route `router.get('/progress', protect, handler)`. -/
def getProgressRoute (env : Env) (store : Store) (req : Request) : Outcome :=
  match protect env req with
  | .next userId _ => getProgress env store userId
  | .respond status text =>
    { status := status, body := .message text, store := store, effects := [] }

/-- The entry of the `progress` array made from a stored session. -/
def Session.progressEntry (s : Session) : ProgressEntry :=
  { id := s.id, date := s.createdAt, risk := s.riskLevel, score := s.score }

/-- The `progress` array of a response, empty when the response has none. -/
def progressOf (outcome : Outcome) : List ProgressEntry :=
  match outcome.body with
  | .progress entries _ => entries
  | _ => []

/-- The wording of the claim about the history route: the request carries a
bearer token that verifies. -/
def carriesVerifiedToken (env : Env) (req : Request) : Bool :=
  match req.authorization with
  | none => false
  | some header =>
    "Bearer".data.isPrefixOf header.data && (verifyToken env (secondField header)).isSome

/-- What a stored session contributes to a history listing at most: everything
but its answers and recommendations. -/
def Session.listingKey (s : Session) : Nat × JsValue × RiskLevel × Nat × Nat :=
  (s.id, s.userId, s.riskLevel, s.score, s.createdAt)

/-- The where-clause of the history query, on listing keys. -/
def keyOwnedBy (userId : JsValue) (key : Nat × JsValue × RiskLevel × Nat × Nat) : Bool :=
  strictEq key.2.1 userId

/-- The order of the history query, on listing keys. -/
def keyNewerFirst (a b : Nat × JsValue × RiskLevel × Nat × Nat) : Prop :=
  b.2.2.2.2 ≤ a.2.2.2.2

instance : DecidableRel keyNewerFirst :=
  fun a b => inferInstanceAs (Decidable (b.2.2.2.2 ≤ a.2.2.2.2))

/-- The progress entry, on listing keys. -/
def keyProgressEntry (key : Nat × JsValue × RiskLevel × Nat × Nat) : ProgressEntry :=
  { id := key.1, date := key.2.2.2.2, risk := key.2.2.1, score := key.2.2.2.1 }

/-! ## The router of `routes/risk.js` -/

/-- The request methods the pages use. -/
inductive Method where
  | GET
  | POST
deriving DecidableEq, Repr

/-- The router exported by `routes/risk.js`, given the path below its mount
point `/api/risk-check` (`server.js`, line 28): it has the two routes
`POST /` and `GET /progress`; a request that matches neither is not handled
by it and, no later handler being mounted, is answered 404 by the framework. -/
def riskRouter (env : Env) (store : Store) (method : Method) (path : String)
    (req : Request) : Outcome :=
  if method = .POST ∧ path = "/" then postRoute env store req
  else if method = .GET ∧ path = "/progress" then getProgressRoute env store req
  else { status := 404, body := .unhandled, store := store, effects := [] }

/-- The path the details page requests below the mount point
(`SessionDetails.jsx`, line 28). -/
def sessionDetailPath (id : String) : String := "/session/" ++ id

/-! ## The quiz page (`Riskcheck.jsx`, lines 18-59 and 234-243) -/

/-- The state of the component `RiskCheck` while the quiz is shown. -/
structure QuizState where
  step : Nat
  answers : JsValue
  loading : Bool
  validationError : String

/-- The state after mounting: `useState(0)`, `useState({})`,
`useState(false)`, `useState('')`. -/
def QuizState.initial : QuizState :=
  { step := 0, answers := .object [], loading := false, validationError := "" }

/-- The value `currentQuestion = QUESTIONS[step]` of line 26, `undefined`
(here `none`) outside the catalog. -/
def currentQuestion (s : QuizState) : Option Question := QUESTIONS[s.step]?

/-- The array method `findIndex`, counting from `start`: the index of the
first element satisfying `p`, or -1. -/
def findIndexFrom (p : Question → Bool) (start : Nat) : List Question → Int
  | [] => -1
  | q :: rest => if p q then (start : Int) else findIndexFrom p (start + 1) rest

/-- The array method `findIndex`. -/
def findIndex (p : Question → Bool) (qs : List Question) : Int := findIndexFrom p 0 qs

/-- The handler `handleAnswerChange` of lines 35-38. -/
def handleAnswerChange (s : QuizState) (id : String) (value : JsValue) : QuizState :=
  { s with answers := s.answers.set id value, validationError := "" }

/-- What a click on the next button did. -/
inductive NextResult where
  | typeError
  | rejected (state : QuizState)
  | advanced (state : QuizState)
  | submitted (state : QuizState)

/-- The handler `handleNext` of lines 40-53. Reading `required` of an
undefined `currentQuestion` throws; otherwise the click is rejected with a
validation message, moves to the next step, or calls `submitRiskCheck`. -/
def handleNext (s : QuizState) : NextResult :=
  match currentQuestion s with
  | none => .typeError
  | some current =>
    if current.required && !(s.answers.get current.id).truthy then
      .rejected
        { s with validationError := "Please answer question " ++ toString (s.step + 1) ++ "." }
    else
      let currentIndex := findIndex (fun q => q.id == current.id) (filteredQuestions s.answers)
      if currentIndex < ((filteredQuestions s.answers).length : Int) - 1 then
        .advanced { s with step := s.step + 1 }
      else
        .submitted s

/-- Whether the click called `submitRiskCheck`. -/
def NextResult.submits : NextResult → Bool
  | .submitted _ => true
  | _ => false

/-- The handler `handlePrev` of lines 55-59. -/
def handlePrev (s : QuizState) : QuizState :=
  if s.step > 0 then { s with step := s.step - 1 } else s

/-- The label of the next button (lines 239-242). -/
def nextButtonLabel (s : QuizState) : String :=
  if s.loading then "Calculating..."
  else if (s.step : Int) = ((filteredQuestions s.answers).length : Int) - 1 then "Get Results"
  else "Next →"

/-- What the respondent does on the quiz page: answer the presented question
(`handleAnswerChange` with the id of `currentQuestion`), click next, click
previous. -/
inductive QuizEvent where
  | answer (value : String)
  | next
  | prev

/-- The state after one event; a click on next that throws or submits leaves
the quiz state as it is. -/
def QuizState.after (s : QuizState) : QuizEvent → QuizState
  | .answer value =>
    match currentQuestion s with
    | some current => handleAnswerChange s current.id (.string value)
    | none => s
  | .next =>
    match handleNext s with
    | .advanced s' => s'
    | .rejected s' => s'
    | _ => s
  | .prev => handlePrev s

/-- The state after a sequence of events, from the initial state. -/
def quizAfter (events : List QuizEvent) : QuizState :=
  events.foldl QuizState.after QuizState.initial

/-! ## The details page (`SessionDetails.jsx`, lines 109-124) -/

/-- The fields of `session` the recommendations section reads. -/
structure SessionView where
  riskLevel : JsValue
  recommendations : Option (List String)

/-- An item of the list the section renders. -/
inductive ListItem where
  | recommendation (text : String)
  | urgentAction
deriving DecidableEq, Repr

/-- The items of the `recommendation-list` of lines 111-123, in the order
rendered. -/
def shownRecommendations (session : SessionView) : List ListItem :=
  (match session.recommendations with
    | some recommendations => recommendations.map ListItem.recommendation
    | none => [])
  ++ (if strictEq session.riskLevel (.string "HIGH") then [ListItem.urgentAction] else [])

/-! ## The history page (`Progress.jsx`, lines 112-127) -/

/-- The name of a band, as the string the responses carry. -/
def RiskLevel.name : RiskLevel → String
  | .LOW => "LOW"
  | .MEDIUM => "MEDIUM"
  | .HIGH => "HIGH"

/-- An entry of the `progress` array as the object the page receives: the
keys of lines 81-84 with their values (the date as its time value). -/
def ProgressEntry.toJson (entry : ProgressEntry) : JsValue :=
  .object [("id", .number entry.id), ("date", .number entry.date),
    ("risk", .string entry.risk.name), ("score", .number entry.score)]

/-- The fields the history page reads from an entry `session` of `history`
to render its card: `session.id`, `session.createdAt`, `session.riskLevel`,
`session.score`. -/
structure SessionCard where
  id : JsValue
  createdAt : JsValue
  riskLevel : JsValue
  score : JsValue

/-- What the card of lines 113-126 reads from one entry. -/
def sessionCard (session : JsValue) : SessionCard :=
  { id := session.get "id", createdAt := session.get "createdAt",
    riskLevel := session.get "riskLevel", score := session.get "score" }

/-! ## The middleware `checkAdmin` (`middleware/adminAuth.js`) -/

/-- The constant `ADMIN_USER_IDS` (line 5). -/
def ADMIN_USER_IDS : List JsValue := [.number 1, .number 2]

/-- What `checkAdmin` did: it called `next`, or it sent a response. -/
inductive AdminResult where
  | next
  | respond (status : Nat) (text : String)
deriving DecidableEq, Repr

/-- The middleware `checkAdmin` (lines 10-34), run with `req.userId`.
`includes` compares a number with the members as `===` does. -/
def checkAdmin (reqUserId : JsValue) : AdminResult :=
  let userId := reqUserId
  if !userId.truthy then .respond 403 "Forbidden: Admin access required."
  else
    let isAdmin := ADMIN_USER_IDS.any (fun member => strictEq member userId)
    if isAdmin then .next
    else .respond 403 "Forbidden: You do not have administrator privileges."

/-! ## The savings page: the storage key (`SavingsGoal.jsx`, lines 17-26) -/

/-- The value `authState` the provider hands out (`AuthContext.jsx`): the
object literal of lines 9-13, 22-26, 35-39 and 46-50, with the three keys
`token`, `userId`, `isAuthenticated`. -/
def authStateOf (token userId : JsValue) (isAuthenticated : Bool) : JsValue :=
  .object [("token", token), ("userId", userId), ("isAuthenticated", .bool isAuthenticated)]

/-- The state before a login and after a logout. -/
def loggedOut : JsValue := authStateOf .null .null false

/-- The state after `login(token, userId)`. -/
def loggedIn (token userId : JsValue) : JsValue := authStateOf token userId true

/-- The optional read `v?.key`: `undefined` when `v` is `undefined` or
`null`. -/
def JsValue.getOptional (v : JsValue) (key : String) : JsValue :=
  match v with
  | .undefined => .undefined
  | .null => .undefined
  | _ => v.get key

/-- The text a template literal puts in for a value; only strings and numbers
occur here. -/
def templateText : JsValue → String
  | .string s => s
  | .number n => toString n
  | .undefined => "undefined"
  | .null => "null"
  | .bool b => if b then "true" else "false"
  | _ => "[object Object]"

/-- The function `getSavingsKey` of line 19. -/
def getSavingsKey (userId : JsValue) : String := "savings_plan_" ++ templateText userId

/-- The constant `SAVINGS_KEY` of lines 24-26 for a given `authState`:
`userId = authState.user?.id || 'guest'`. -/
def SAVINGS_KEY (authState : JsValue) : String :=
  getSavingsKey (JsValue.or ((authState.get "user").getOptional "id") (.string "guest"))

/-! ## `POST /api/auth/login` (`routes/auth.js`, lines 55-88) -/

/-- A row of the table `users` (`models/User.js`): the id, the email and the
stored password hash. -/
structure User where
  id : Nat
  email : String
  password : String
deriving DecidableEq, Repr

/-- What the login handler is run against: the query
`User.findOne({ where: { email } })`, which Sequelize runs on the table and
which resolves to a user or to `null` (`none`) or rejects; whether a candidate
password matches a stored hash (`bcrypt.compare` on two strings); and the
token signed for a user id (`generateToken`). -/
structure AuthEnv where
  findOne : JsValue → Except String (Option User)
  bcryptMatches : String → String → Bool
  generateToken : Nat → String

/-- The method `comparePassword` (`models/User.js`, lines 53-56):
`bcrypt.compare` rejects a candidate that is not a string. -/
def User.comparePassword (env : AuthEnv) (user : User) (candidatePassword : JsValue) :
    Except String Bool :=
  match candidatePassword with
  | .string candidate => .ok (env.bcryptMatches candidate user.password)
  | _ => .error "data must be a string or Buffer and hash must be a string"

/-- A response of the login route: a message, or the token with the message
and the user id. -/
inductive LoginResponse where
  | message (status : Nat) (text : String)
  | token (status : Nat) (token : String) (text : String) (userId : Nat)
deriving DecidableEq, Repr

/-- The route handler of lines 55-88, run with the parsed body (an object).
A rejection inside the `try` block (of the query or of the comparison) is
answered by the `catch` of lines 84-87. -/
def login (env : AuthEnv) (reqBody : JsValue) : LoginResponse :=
  let email := reqBody.get "email"
  let password := reqBody.get "password"
  if !email.truthy || !password.truthy then
    .message 400 "Email and password are required."
  else
    match env.findOne email with
    | .error _ => .message 500 "Server error during login."
    | .ok none => .message 401 "Invalid credentials."
    | .ok (some user) =>
      match user.comparePassword env password with
      | .error _ => .message 500 "Server error during login."
      | .ok isMatch =>
        if !isMatch then .message 401 "Invalid credentials."
        else .token 200 (env.generateToken user.id) "Login successful." user.id

/-! ## `GET /api/clinics` (`routes/clinic.js`, lines 12-37) -/

/-- The object `whereClause` after lines 14-37: the county to match, the
service whose text the `LIKE` pattern wraps in `%`, the price band. A key
that was not set is `none`. -/
structure WhereClause where
  county : Option JsValue
  availableServices : Option JsValue
  priceBand : Option String

/-- The array literal of line 34. -/
def PRICE_BANDS : List String := ["FREE", "LOW", "MEDIUM", "HIGH"]

/-- Lines 13-37: the where-clause built from `req.query`, given the string
method `toUpperCase`. A `priceBand` that is truthy and not a string (a
repeated parameter is an array) has no method `toUpperCase`: the call throws. -/
def buildWhereClause (toUpperCase : String → String) (query : JsValue) :
    Except String WhereClause :=
  let county := query.get "county"
  let service := query.get "service"
  let priceBand := query.get "priceBand"
  let countyFilter := if county.truthy then some county else none
  let serviceFilter := if service.truthy then some service else none
  if priceBand.truthy then
    match priceBand with
    | .string text =>
      if PRICE_BANDS.contains (toUpperCase text) then
        .ok { county := countyFilter, availableServices := serviceFilter,
              priceBand := some (toUpperCase text) }
      else
        .ok { county := countyFilter, availableServices := serviceFilter, priceBand := none }
    | _ => .error "TypeError: priceBand.toUpperCase is not a function"
  else
    .ok { county := countyFilter, availableServices := serviceFilter, priceBand := none }

/-! ## Reachable quiz states -/

/-- What holds of every quiz state reached by answering the presented
question, `handleNext` and `handlePrev`: the step is inside the catalog; from
step 5 on `q_sex` is one of the two options, and at step 6 it is Male; every
required question before the current step has a truthy answer; and every
stored answer is a string. -/
def QuizInvariant (s : QuizState) : Prop :=
  s.step ≤ 6 ∧
  (5 ≤ s.step →
    s.answers.get "q_sex" = .string "Female" ∨ s.answers.get "q_sex" = .string "Male") ∧
  (s.step = 6 → s.answers.get "q_sex" = .string "Male") ∧
  (∀ j q, j < s.step → QUESTIONS[j]? = some q → q.required = true →
    (s.answers.get q.id).truthy = true) ∧
  (∀ key, s.answers.get key = .undefined ∨ ∃ value, s.answers.get key = .string value)

/-! ## The savings page (`SavingsGoal.jsx`, lines 51-140)

Amounts are JavaScript numbers, IEEE-754 doubles. The amounts modelled here
are finite and non-negative; a double is kept as its exact value
`significand / 2^scale`, and each arithmetic step rounds to 53 significant
bits, ties to even, as the double operation does. -/

/-- The constant `MIN_TARGET_AMOUNT`. -/
def MIN_TARGET_AMOUNT : Nat := 1000

/-- The constant `TARGET_MONTHS_SHORT`. -/
def TARGET_MONTHS_SHORT : Nat := 3

/-- The integer nearest to `num / den`, the even one of the two when
`num / den` is half-way between them. -/
def roundHalfEven (num den : Nat) : Nat :=
  if 2 * (num % den) < den then num / den
  else if den < 2 * (num % den) then num / den + 1
  else if (num / den) % 2 = 0 then num / den
  else num / den + 1

/-- The halving count behind `binaryExponent`. -/
def halvings : Nat → Nat → Nat
  | 0, _ => 0
  | fuel + 1, n => if n < 2 then 0 else halvings fuel (n / 2) + 1

/-- The binary exponent of a whole number `n ≥ 1` below 2^1024: the `e` with
`2^e ≤ n < 2^(e+1)`. -/
def binaryExponent (n : Nat) : Nat := halvings 1024 n

/-- A finite non-negative double, by its exact value
`significand / 2^scale`. -/
structure Double where
  significand : Nat
  scale : Nat
deriving DecidableEq, Repr

/-- The double nearest to `num / den`, for `1 ≤ num / den < 2^1024`: the
quotient rounded to 53 significant bits. A quotient below 1 is rounded to a
multiple of 2^-52 instead, which keeps it at most 1. -/
def roundToDouble (num den : Nat) : Double :=
  if binaryExponent (num / den) ≤ 52 then
    { significand := roundHalfEven (num * 2 ^ (52 - binaryExponent (num / den))) den,
      scale := 52 - binaryExponent (num / den) }
  else
    { significand :=
        roundHalfEven num (den * 2 ^ (binaryExponent (num / den) - 52))
          * 2 ^ (binaryExponent (num / den) - 52),
      scale := 0 }

/-- The method `Math.ceil` on a double: the least whole number not below
it. -/
def Double.ceil (x : Double) : Nat := (x.significand + 2 ^ x.scale - 1) / 2 ^ x.scale

/-- The comparison `x < n` of a double with a whole number. -/
def Double.ltNat (x : Double) (n : Nat) : Bool := decide (x.significand < n * 2 ^ x.scale)

/-- The comparison `n >= x` of a whole number with a double. -/
def Double.leNat (x : Double) (n : Nat) : Bool := decide (x.significand ≤ n * 2 ^ x.scale)

/-- The quotient `x / n` of a double by a whole number `n ≥ 1`. -/
def Double.divNat (x : Double) (n : Nat) : Double :=
  roundToDouble x.significand (2 ^ x.scale * n)

/-- The double nearest to the whole number `n`: `n` itself below 2^53,
otherwise `n` rounded to 53 significant bits. -/
def roundWhole (n : Nat) : Nat :=
  if n < 2 ^ 53 then n
  else roundHalfEven n (2 ^ (binaryExponent n - 52)) * 2 ^ (binaryExponent n - 52)

/-- The sum `a + b` of two whole doubles. -/
def flAdd (a b : Nat) : Nat := roundWhole (a + b)

/-- The number a decimal text denotes: `digits / 10^places`, negated when
`negative`. -/
structure Decimal where
  negative : Bool
  digits : Nat
  places : Nat
deriving DecidableEq, Repr

/-- The two values of `calculationMode`. -/
inductive CalculationMode where
  | flexible_plan
  | custom_goal
deriving DecidableEq, Repr

/-- The object `handleCalculate` passes to `setResult` when validation
passes. `requiredMonthly` is the result of `Math.ceil`, a whole number. -/
structure Calculation where
  target : Double
  months : Nat
  requiredMonthly : Nat
deriving DecidableEq, Repr

/-- The function `parseFloat` on the text of a number input: `none` for a
text that is no number (`NaN`), otherwise the sign and the double nearest to
the magnitude. -/
def parseFloat (text : Option Decimal) : Option (Bool × Double) :=
  text.map fun typed => (typed.negative, roundToDouble typed.digits (10 ^ typed.places))

/-- The handler `handleCalculate` of lines 51-87, on the texts `targetAmount`
and `customGoalAmount` and on `parseInt(timeframe, 10)` (`none` for `NaN`). A
failed validation sets `result.error`, here `none`. A negative amount is
below `MIN_TARGET_AMOUNT`. -/
def handleCalculate (mode : CalculationMode) (targetAmount : Option Decimal)
    (timeframe : Option Int) (customGoalAmount : Option Decimal) : Option Calculation :=
  match mode with
  | .flexible_plan =>
    match parseFloat targetAmount, timeframe with
    | some (negative, finalTargetAmount), some finalMonths =>
      if negative = true ∨ finalTargetAmount.ltNat MIN_TARGET_AMOUNT = true
          ∨ finalMonths ≤ 0 ∨ finalMonths > 24 then none
      else some
        { target := finalTargetAmount, months := finalMonths.toNat,
          requiredMonthly := (finalTargetAmount.divNat finalMonths.toNat).ceil }
    | _, _ => none
  | .custom_goal =>
    match parseFloat customGoalAmount with
    | some (negative, finalTargetAmount) =>
      if negative = true ∨ finalTargetAmount.ltNat MIN_TARGET_AMOUNT = true then none
      else some
        { target := finalTargetAmount, months := TARGET_MONTHS_SHORT,
          requiredMonthly := (finalTargetAmount.divNat TARGET_MONTHS_SHORT).ceil }
    | none => none

/-- The record `planDetails`. The amounts `requiredMonthly` and `totalSaved`
are whole: the first comes from `Math.ceil`, the second is a sum of such. -/
structure Plan where
  target : Double
  months : Nat
  requiredMonthly : Nat
  totalSaved : Nat
  lastPaymentDate : Option String
  isGoalAchieved : Bool
deriving DecidableEq, Repr

/-- The state of the tracker: `planDetails`, and for every `setTimeout`
callback of `handleMakePayment` that has not run yet the `planDetails` it
closed over, oldest first. -/
structure SavingsPage where
  planDetails : Option Plan
  timers : List Plan
deriving DecidableEq, Repr

/-- The handler `handleStartSaving` of lines 90-106, for a calculation
without error: the new plan becomes `planDetails`. -/
def handleStartSaving (result : Calculation) : SavingsPage :=
  { planDetails := some
      { target := result.target, months := result.months,
        requiredMonthly := result.requiredMonthly, totalSaved := 0,
        lastPaymentDate := none, isGoalAchieved := false },
    timers := [] }

/-- The handler `handleMakePayment` of lines 109-140, up to the call of
`setTimeout`: nothing happens without a plan or for an achieved plan;
otherwise a callback is scheduled that closes over the `planDetails` of this
render. -/
def handleMakePayment (page : SavingsPage) : SavingsPage :=
  match page.planDetails with
  | none => page
  | some planDetails =>
    if planDetails.isGoalAchieved then page
    else { page with timers := page.timers ++ [planDetails] }

/-- The plan `updatedPlan` of lines 119-127, computed from the `planDetails`
the callback closed over. -/
def updatedPlan (now : String) (planDetails : Plan) : Plan :=
  { planDetails with
    totalSaved := flAdd planDetails.totalSaved planDetails.requiredMonthly,
    lastPaymentDate := some now,
    isGoalAchieved :=
      planDetails.target.leNat (flAdd planDetails.totalSaved planDetails.requiredMonthly) }

/-- The callback of lines 115-139 run by the oldest pending timer: on a
confirmed prompt `updatedPlan` becomes `planDetails`, a cancelled prompt
changes nothing. -/
def paymentPrompt (confirmed : Bool) (now : String) (page : SavingsPage) : SavingsPage :=
  match page.timers with
  | [] => page
  | planDetails :: rest =>
    if confirmed then { planDetails := some (updatedPlan now planDetails), timers := rest }
    else { page with timers := rest }

/-- What happens on the tracker: a click on the payment button, or a pending
timer firing with the answer given to its prompt at time `now`. -/
inductive SavingsEvent where
  | click
  | prompt (confirmed : Bool) (now : String)
deriving DecidableEq, Repr

/-- The page after one event. -/
def SavingsPage.after (page : SavingsPage) : SavingsEvent → SavingsPage
  | .click => handleMakePayment page
  | .prompt confirmed now => paymentPrompt confirmed now page

/-- The page after a sequence of events. -/
def SavingsPage.afterAll (page : SavingsPage) (events : List SavingsEvent) : SavingsPage :=
  events.foldl SavingsPage.after page

/-- The number of confirmed payments among the events. -/
def confirmedPayments (events : List SavingsEvent) : Nat :=
  (events.filter fun event =>
    match event with
    | .prompt true _ => true
    | _ => false).length

/-- The events of `count` payments made one after the other: each click is
followed by its confirmed prompt before the next click. -/
def paidInTurn (now : String) : Nat → List SavingsEvent
  | 0 => []
  | count + 1 => .click :: .prompt true now :: paidInTurn now count

/-! ## Sample data -/

/-- The respondent answers age 50, sex Male, then "No" to the three questions
that follow, clicking next after each answer. -/
def maleFlow : List QuizEvent :=
  [.answer "50", .next, .answer "Male", .next, .answer "No", .next, .answer "No", .next,
   .answer "No", .next]

/-- The quiz after `maleFlow` and an answer to the question then presented
(step 5, `q_bleeding`). -/
def maleAtStepFive : QuizState := quizAfter (maleFlow ++ [.answer "No"])

/-- The quiz one click and one answer later (step 6, `q_urine_issue`). -/
def maleAtStepSix : QuizState := quizAfter (maleFlow ++ [.answer "No", .next, .answer "No"])

/-- The catalog entry `q_sex`. -/
def sexQuestion : Question := QUESTIONS.get ⟨1, by decide⟩

/-- A stored session of user 7, with the High evaluation. -/
def firstOfSeven : Session :=
  { id := 1, userId := .number 7, answers := .object [("q_age", .number 34), ("q_sex", .string "Female")], riskLevel := .HIGH,
    score := 60, recommendation := [.urgentAction, .general .HIGH], createdAt := 1000 }

/-- A stored session of user 9. -/
def firstOfNine : Session :=
  { id := 2, userId := .number 9, answers := .object [], riskLevel := .LOW, score := 0,
    recommendation := [.general .LOW], createdAt := 1001 }

/-- A later stored session of user 7. -/
def secondOfSeven : Session :=
  { id := 3, userId := .number 7, answers := .object [], riskLevel := .MEDIUM, score := 25,
    recommendation := [.general .MEDIUM], createdAt := 1002 }

/-- A history request whose bearer token does not verify. -/
def staleTokenRequest : Request := { authorization := some "Bearer abc", body := .undefined }

/-- A table holding sessions of two owners. -/
def twoOwnerStore : Store :=
  { sessions := [firstOfSeven, firstOfNine, secondOfSeven], nextId := 4 }

/-- A session of band HIGH with one recommendation, as the details page
receives it. -/
def highSessionView : SessionView :=
  { riskLevel := .string "HIGH", recommendations := some ["Have the lump examined."] }

/-- The second example scenario: age 50, sex Male, every risk question "No". -/
def maleAtFifty : JsValue :=
  .object [("q_age", .number 50), ("q_sex", .string "Male"), ("q_lump", .string "No"),
    ("q_pain", .string "No"), ("q_family", .string "No"), ("q_urine_issue", .string "No")]

/-- A submission with the age missing (empty input) and the sex present. -/
def emptyAge : JsValue := .object [("q_age", .string ""), ("q_sex", .string "Male")]

/-- A submission with an age below the catalog minimum of 10. -/
def ageFive : JsValue :=
  .object [("q_age", .number 5), ("q_sex", .string "Male"), ("q_lump", .string "No"),
    ("q_pain", .string "No"), ("q_family", .string "No"), ("q_urine_issue", .string "No")]

/-- A Female submission that also answers the Male-only `q_urine_issue`. -/
def femaleWithUrineAnswer : JsValue :=
  .object [("q_age", .number 34), ("q_sex", .string "Female"), ("q_lump", .string "No"),
    ("q_pain", .string "No"), ("q_family", .string "No"), ("q_bleeding", .string "No"),
    ("q_urine_issue", .string "Yes")]

/-- The evaluation of `femaleAtThirtyFour` under `sampleThresholds`. -/
def highEvaluation : Evaluation :=
  { riskLevel := .HIGH, score := 60,
    recommendations :=
      [.urgentAction, .general .HIGH, .targeted "q_lump", .targeted "q_family",
       .targeted "q_bleeding"] }

/-- The catalog entry `q_lump`. -/
def lumpQuestion : Question := QUESTIONS.get ⟨2, by decide⟩

/-- The first example scenario: age 34, sex Female, lump, family and bleeding
"Yes", pain "No". -/
def femaleAtThirtyFour : JsValue :=
  .object [("q_age", .number 34), ("q_sex", .string "Female"), ("q_lump", .string "Yes"),
    ("q_pain", .string "No"), ("q_family", .string "Yes"), ("q_bleeding", .string "Yes")]

/-- Band boundaries used in the worked examples. -/
def sampleThresholds : Thresholds := { low := 25, high := 50 }

/-- An environment whose evaluation is the modelled `evaluateRisk`. -/
def sampleEnv : Env :=
  { evaluateRisk := evaluateRisk sampleThresholds, jwtVerify := fun _ => none,
    now := 1000, storeAvailable := true }

/-- The empty table. -/
def emptyStore : Store := { sessions := [], nextId := 1 }

/-- The table after user 7 submitted twice at the same clock reading. -/
def tieStore : Store :=
  (postRiskCheck sampleEnv (postRiskCheck sampleEnv emptyStore (.number 7) maleAtFifty).store
    (.number 7) femaleAtThirtyFour).store

/-- An environment in which the token `token-7` verifies, with id 7. -/
def tokenEnv : Env :=
  { evaluateRisk := evaluateRisk sampleThresholds,
    jwtVerify := fun token =>
      if token = "token-7" then some (.object [("id", .number 7)]) else none,
    now := 1000, storeAvailable := true }

/-- A request carrying the token that verifies. -/
def tokenRequest : Request := { authorization := some "Bearer token-7", body := .undefined }

/-- An upper-casing of the letters a to z, leaving other characters as they
are. -/
def upperAscii (text : String) : String :=
  String.mk (text.data.map (fun c =>
    if 'a'.toNat ≤ c.toNat ∧ c.toNat ≤ 'z'.toNat then Char.ofNat (c.toNat - 32) else c))

/-- A clinic query for county Nairobi with price band `low`. -/
def lowPriceQuery : JsValue :=
  .object [("county", .string "Nairobi"), ("priceBand", .string "low")]

/-- A registered user. -/
def amina : User := { id := 1, email := "amina@example.org", password := "hash-of-amina" }

/-- A table in which `amina@example.org` is registered, with a password check
in which a hash `hash-of-x` is matched by `x` only. -/
def registeredEnv : AuthEnv :=
  { findOne := fun email =>
      if strictEq (.string "amina@example.org") email then .ok (some amina) else .ok none,
    bcryptMatches := fun candidate hash => "hash-of-" ++ candidate == hash,
    generateToken := fun id => if id = 1 then "token-1" else "token-other" }

/-- The same server with no user registered. -/
def unregisteredEnv : AuthEnv :=
  { registeredEnv with findOne := fun _ => .ok none }

/-- A login attempt whose password is the JSON number 12345. -/
def numericPasswordBody : JsValue :=
  .object [("email", .string "amina@example.org"), ("password", .number 12345)]

/-- A login attempt for a registered email with a wrong password. -/
def wrongPasswordBody : JsValue :=
  .object [("email", .string "amina@example.org"), ("password", .string "guess")]

/-- The query `?priceBand=low&priceBand=high`: a repeated parameter is parsed
into an array. -/
def arrayPriceQuery : JsValue :=
  .object [("priceBand", .array [.string "low", .string "high"])]

/-- The text `2000` typed as the target amount. -/
def twoThousand : Decimal := { negative := false, digits := 2000, places := 0 }

/-- Two clicks on the payment button within the second the first timer
takes, then both prompts confirmed. -/
def overlappingPayments : List SavingsEvent :=
  [.click, .click, .prompt true "2025-01-01T10:00:01Z", .prompt true "2025-01-01T10:00:02Z"]

/-- Two payments, each requested after the prompt of the one before was
answered. -/
def separatePayments : List SavingsEvent :=
  [.click, .prompt true "2025-01-01T10:00:01Z", .click, .prompt true "2025-02-01T10:00:01Z"]

/-- The text `13470598200314302`, a whole number above 2^53 that is a
double. -/
def largeTarget : Decimal := { negative := false, digits := 13470598200314302, places := 0 }

/-! # Theorems -/

/-! ## JavaScript operators -/

theorem strictEq_string_iff (s : String) (v : JsValue) :
    strictEq (.string s) v = true ↔ v = .string s := by
  cases v <;> simp [strictEq]
  exact eq_comm

theorem lookup_assign (key key' : String) (value : JsValue) (fields : List (String × JsValue)) :
    lookup key' (assign key value fields) = if key = key' then value else lookup key' fields := by
  induction fields with
  | nil => simp [assign, lookup]
  | cons p rest ih =>
    obtain ⟨k, v⟩ := p
    by_cases hk : k = key
    · subst hk
      by_cases hk' : k = key' <;> simp [assign, lookup, hk']
    · by_cases hk' : k = key'
      · subst hk'
        have : ¬ key = k := fun h => hk h.symm
        simp [assign, lookup, hk, this]
      · simp [assign, lookup, hk, hk', ih]

theorem get_set (v : JsValue) (key key' : String) (value : JsValue) :
    (v.set key value).get key' = if key = key' then value else v.get key' := by
  cases v <;> simp [JsValue.set, JsValue.get, lookup, lookup_assign]

/-! ## The branch filter -/

theorem QUESTIONS_nodup : QUESTIONS.Nodup := by decide

theorem appliesTo_ne_empty : ∀ q ∈ QUESTIONS, q.appliesTo ≠ some "" := by decide

theorem appliesToAnswers_none (answers : JsValue) (q : Question) (h : q.appliesTo = none) :
    appliesToAnswers answers q = true := by
  simp [appliesToAnswers, h, optString, truthy]

theorem appliesToAnswers_some (answers : JsValue) (q : Question) (s : String)
    (h : q.appliesTo = some s) (hs : s ≠ "") :
    appliesToAnswers answers q = true ↔ answers.get "q_sex" = .string s := by
  simp [appliesToAnswers, h, optString, truthy, hs, strictEq_string_iff]

theorem appliesToAnswers_iff (answers : JsValue) (q : Question) (hq : q ∈ QUESTIONS) :
    appliesToAnswers answers q = true ↔ AppliesPerClaim answers q := by
  cases h : q.appliesTo with
  | none => simp [appliesToAnswers_none answers q h, AppliesPerClaim, h]
  | some s =>
    have hs : s ≠ "" := fun he => appliesTo_ne_empty q hq (by rw [h, he])
    rw [appliesToAnswers_some answers q s h hs]
    simp only [AppliesPerClaim, h, optString]
    constructor
    · intro hv
      exact Or.inr hv.symm
    · intro hv
      rcases hv with hv | hv
      · exact absurd hv (by simp)
      · exact hv.symm

/-- C1: for every answer set, `filteredQuestions` is a subsequence of the
catalog `QUESTIONS` (catalog order kept, nothing added), has no duplicate,
and its members are exactly the catalog questions that have no `appliesTo`
or whose `appliesTo` equals `answers.q_sex`. -/
theorem filteredQuestions_catalog_subsequence (answers : JsValue) :
    List.Sublist (filteredQuestions answers) QUESTIONS ∧
    (filteredQuestions answers).Nodup ∧
    ∀ q, q ∈ filteredQuestions answers ↔ q ∈ QUESTIONS ∧ AppliesPerClaim answers q := by
  refine ⟨List.filter_sublist _, QUESTIONS_nodup.sublist (List.filter_sublist _), ?_⟩
  intro q
  constructor
  · intro h
    have hq := (List.mem_filter.mp h)
    exact ⟨hq.1, (appliesToAnswers_iff answers q hq.1).mp hq.2⟩
  · rintro ⟨hq, h⟩
    exact List.mem_filter.mpr ⟨hq, (appliesToAnswers_iff answers q hq).mpr h⟩

theorem filteredQuestions_congr (a b : JsValue) (h : a.get "q_sex" = b.get "q_sex") :
    filteredQuestions a = filteredQuestions b := by
  have hfun : appliesToAnswers a = appliesToAnswers b := by
    funext q
    simp only [appliesToAnswers, h]
  simp only [filteredQuestions, hfun]

theorem questionIds_female (answers : JsValue) (h : answers.get "q_sex" = .string "Female") :
    questionIds (filteredQuestions answers)
      = ["q_age", "q_sex", "q_lump", "q_pain", "q_family", "q_bleeding"] := by
  rw [filteredQuestions_congr answers (.object [("q_sex", .string "Female")]) (by rw [h]; rfl)]
  decide

theorem questionIds_male (answers : JsValue) (h : answers.get "q_sex" = .string "Male") :
    questionIds (filteredQuestions answers)
      = ["q_age", "q_sex", "q_lump", "q_pain", "q_family", "q_urine_issue"] := by
  rw [filteredQuestions_congr answers (.object [("q_sex", .string "Male")]) (by rw [h]; rfl)]
  decide

/-- C2: when `q_sex` is "Female" the resolved list contains `q_bleeding` and
not `q_urine_issue`; when `q_sex` is "Male" it contains `q_urine_issue` and
not `q_bleeding`. -/
theorem sex_specific_questions_exclusive (answers : JsValue) :
    (answers.get "q_sex" = .string "Female" →
      "q_bleeding" ∈ questionIds (filteredQuestions answers) ∧
      "q_urine_issue" ∉ questionIds (filteredQuestions answers)) ∧
    (answers.get "q_sex" = .string "Male" →
      "q_urine_issue" ∈ questionIds (filteredQuestions answers) ∧
      "q_bleeding" ∉ questionIds (filteredQuestions answers)) := by
  constructor
  · intro h
    rw [questionIds_female answers h]
    decide
  · intro h
    rw [questionIds_male answers h]
    decide

/-- C2, at age 50 and sex Male: `q_urine_issue` is in the resolved list and
`q_bleeding` is not. -/
theorem sex_specific_questions_exclusive_witness :
    maleAtFifty.get "q_sex" = .string "Male" ∧
    "q_urine_issue" ∈ questionIds (filteredQuestions maleAtFifty) ∧
    "q_bleeding" ∉ questionIds (filteredQuestions maleAtFifty) :=
  ⟨rfl, (sex_specific_questions_exclusive maleAtFifty).2 rfl⟩

/-! ## Scoring and banding -/

theorem foldl_add_eq_sum (f : Question → Nat) (l : List Question) (init : Nat) :
    l.foldl (fun total q => total + f q) init = init + (l.map f).sum := by
  induction l generalizing init with
  | nil => simp
  | cons q rest ih => simp [ih, Nat.add_assoc]

theorem totalScore_eq_sum (answers : JsValue) :
    totalScore answers = ((filteredQuestions answers).map (contribution answers)).sum := by
  simp [totalScore, foldl_add_eq_sum]

theorem sum_contribution_filter (answers : JsValue) (l : List Question) :
    ((l.filter (appliesToAnswers answers)).map (contribution answers)).sum =
      ((l.filter (fun q => appliesToAnswers answers q && q.riskWeight.isSome &&
          strictEq (answers.get q.id) (.string "Yes"))).map (fun q => q.riskWeight.getD 0)).sum := by
  induction l with
  | nil => simp
  | cons q rest ih =>
    by_cases ha : appliesToAnswers answers q = true
    · cases hw : q.riskWeight with
      | none => simp [List.filter_cons, ha, hw, contribution, ih]
      | some w =>
        by_cases hy : strictEq (answers.get q.id) (.string "Yes") = true
        · simp [List.filter_cons, ha, hw, hy, contribution, riskAnswer, ih]
        · simp [List.filter_cons, ha, hw, hy, contribution, riskAnswer, ih]
    · simp [List.filter_cons, ha, ih]

theorem evaluateRisk_of_valid (t : Thresholds) (answers : JsValue)
    (hage : validAge (answers.get "q_age") = true) (hsex : validSex (answers.get "q_sex") = true) :
    evaluateRisk t answers = .ok
      { riskLevel := riskBand t (totalScore answers), score := totalScore answers,
        recommendations :=
          recommendationsFor (riskBand t (totalScore answers)) (firedQuestions answers) } := by
  simp [evaluateRisk, hage, hsex]

theorem riskBand_rank_mono (t : Thresholds) (a b : Nat) (h : a ≤ b) :
    (riskBand t a).rank ≤ (riskBand t b).rank := by
  unfold riskBand
  split_ifs <;> simp [RiskLevel.rank] <;> omega

/-- C3: for every complete answer set and every pair of band boundaries, the
evaluation succeeds and its score equals the sum of the catalog weights of
the applicable scored questions answered "Yes". -/
theorem evaluateRisk_score_eq_sumOfRiskWeights (t : Thresholds) (answers : JsValue)
    (h : Complete answers) :
    ∃ evaluation, evaluateRisk t answers = .ok evaluation ∧
      evaluation.score = sumOfRiskWeights answers := by
  refine ⟨_, evaluateRisk_of_valid t answers h.1 h.2.1, ?_⟩
  show totalScore answers = sumOfRiskWeights answers
  rw [totalScore_eq_sum]
  exact sum_contribution_filter answers QUESTIONS

/-- C3, at age 34, Female, lump "Yes", pain "No", family "Yes", bleeding
"Yes": the evaluation succeeds with the sum of weights, which is
25 + 20 + 15 = 60. -/
theorem evaluateRisk_score_eq_sumOfRiskWeights_witness :
    Complete femaleAtThirtyFour ∧
    (∃ evaluation, evaluateRisk sampleThresholds femaleAtThirtyFour = .ok evaluation ∧
      evaluation.score = sumOfRiskWeights femaleAtThirtyFour) ∧
    sumOfRiskWeights femaleAtThirtyFour = 25 + 20 + 15 :=
  ⟨by decide,
   evaluateRisk_score_eq_sumOfRiskWeights sampleThresholds femaleAtThirtyFour (by decide),
   by decide⟩

/-! ## Monotonicity -/

theorem question_ids_distinct :
    ∀ x ∈ QUESTIONS, ∀ y ∈ QUESTIONS, x.id = y.id → x = y := by decide

theorem scored_not_demographic :
    ∀ q ∈ QUESTIONS, q.riskWeight.isSome = true → q.id ≠ "q_age" ∧ q.id ≠ "q_sex" := by decide

theorem contribution_after_answer (answers : JsValue) (q x : Question) (w : Nat)
    (hq : q ∈ QUESTIONS) (hx : x ∈ QUESTIONS) (hw : q.riskWeight = some w)
    (hno : answers.get q.id = .string "No") :
    contribution (answers.set q.id (.string "Yes")) x =
      contribution answers x + (if x = q then w else 0) := by
  by_cases hxq : x = q
  · subst hxq
    simp [contribution, hw, get_set, hno, riskAnswer, strictEq]
  · have hid : ¬ q.id = x.id := fun h => hxq (question_ids_distinct x hx q hq h.symm)
    simp [contribution, get_set, hid, hxq]

theorem sum_indicator (q : Question) (w : Nat) (l : List Question) (hnd : l.Nodup) (hq : q ∈ l) :
    (l.map (fun x => if x = q then w else 0)).sum = w := by
  induction l with
  | nil => simp at hq
  | cons y rest ih =>
    have hnd' := List.nodup_cons.mp hnd
    by_cases hy : y = q
    · subst hy
      have hzero : (rest.map (fun x => if x = y then w else 0)).sum = 0 := by
        apply List.sum_eq_zero
        intro n hn
        obtain ⟨x, hx, rfl⟩ := List.mem_map.mp hn
        have : x ≠ y := fun h => hnd'.1 (h ▸ hx)
        simp [this]
      simp [hzero]
    · have hq' : q ∈ rest := by
        rcases List.mem_cons.mp hq with h | h
        · exact absurd h.symm hy
        · exact h
      simp [hy, ih hnd'.2 hq']

theorem totalScore_after_answer (answers : JsValue) (q : Question) (w : Nat)
    (hq : q ∈ filteredQuestions answers) (hw : q.riskWeight = some w)
    (hno : answers.get q.id = .string "No") :
    totalScore (answers.set q.id (.string "Yes")) = totalScore answers + w := by
  have hcat : q ∈ QUESTIONS := (List.mem_filter.mp hq).1
  have hid := scored_not_demographic q hcat (by simp [hw])
  have hsame : filteredQuestions (answers.set q.id (.string "Yes")) = filteredQuestions answers :=
    filteredQuestions_congr _ _ (by simp [get_set, hid.2])
  have hnd : (filteredQuestions answers).Nodup := QUESTIONS_nodup.sublist (List.filter_sublist _)
  rw [totalScore_eq_sum, totalScore_eq_sum, hsame]
  have hmap : (filteredQuestions answers).map (contribution (answers.set q.id (.string "Yes")))
      = (filteredQuestions answers).map
          (fun x => contribution answers x + (if x = q then w else 0)) := by
    apply List.map_congr_left
    intro x hx
    exact contribution_after_answer answers q x w hcat (List.mem_filter.mp hx).1 hw hno
  rw [hmap, List.sum_map_add, sum_indicator q w _ hnd hq]

/-- C4: for every complete answer set and every applicable scored question
answered "No", changing that one answer to "Yes" gives an evaluation that
succeeds like the first, whose score is the old score plus the question's
weight (so not lower) and whose band is not lower in Low < Medium < High. -/
theorem flip_to_risk_answer_monotone (t : Thresholds) (answers : JsValue) (q : Question)
    (w : Nat) (hc : Complete answers) (hq : q ∈ filteredQuestions answers)
    (hw : q.riskWeight = some w) (hno : answers.get q.id = .string "No") :
    ∃ before after, evaluateRisk t answers = .ok before ∧
      evaluateRisk t (answers.set q.id (.string "Yes")) = .ok after ∧
      after.score = before.score + w ∧ before.score ≤ after.score ∧
      before.riskLevel.rank ≤ after.riskLevel.rank := by
  have hcat : q ∈ QUESTIONS := (List.mem_filter.mp hq).1
  have hid := scored_not_demographic q hcat (by simp [hw])
  have hage : validAge ((answers.set q.id (.string "Yes")).get "q_age") = true := by
    simpa [get_set, hid.1] using hc.1
  have hsex : validSex ((answers.set q.id (.string "Yes")).get "q_sex") = true := by
    simpa [get_set, hid.2] using hc.2.1
  have hscore := totalScore_after_answer answers q w hq hw hno
  refine ⟨_, _, evaluateRisk_of_valid t answers hc.1 hc.2.1,
    evaluateRisk_of_valid t _ hage hsex, hscore, ?_, ?_⟩
  · show totalScore answers ≤ totalScore (answers.set q.id (.string "Yes"))
    omega
  · show (riskBand t (totalScore answers)).rank
      ≤ (riskBand t (totalScore (answers.set q.id (.string "Yes")))).rank
    exact riskBand_rank_mono t _ _ (by omega)

/-- C4, at age 50, Male, every risk question "No", flipping `q_lump` (weight
25) to "Yes". -/
theorem flip_to_risk_answer_monotone_witness :
    Complete maleAtFifty ∧ lumpQuestion ∈ filteredQuestions maleAtFifty ∧
    lumpQuestion.riskWeight = some 25 ∧ maleAtFifty.get lumpQuestion.id = .string "No" ∧
    ∃ before after, evaluateRisk sampleThresholds maleAtFifty = .ok before ∧
      evaluateRisk sampleThresholds (maleAtFifty.set lumpQuestion.id (.string "Yes")) = .ok after ∧
      after.score = before.score + 25 ∧ before.score ≤ after.score ∧
      before.riskLevel.rank ≤ after.riskLevel.rank :=
  ⟨by decide, by decide, rfl, rfl,
   flip_to_risk_answer_monotone sampleThresholds maleAtFifty lumpQuestion 25
     (by decide) (by decide) rfl rfl⟩

/-! ## The submit handler -/

theorem truthy_of_get_truthy (v : JsValue) (key : String) (h : (v.get key).truthy = true) :
    v.truthy = true := by
  cases v <;> simp_all [JsValue.get, truthy]

theorem postRiskCheck_missing (env : Env) (store : Store) (reqUserId reqBody : JsValue)
    (h : reqBody.truthy = false ∨ (reqBody.get "q_age").truthy = false ∨
      (reqBody.get "q_sex").truthy = false) :
    postRiskCheck env store reqUserId reqBody =
      { status := 400, body := .message "Missing required inputs (age and sex).",
        store := store, effects := [] } := by
  unfold postRiskCheck
  rcases h with h | h | h <;> simp [h]

theorem postRiskCheck_throws (env : Env) (store : Store) (reqUserId reqBody : JsValue)
    (text : String) (hage : (reqBody.get "q_age").truthy = true)
    (hsex : (reqBody.get "q_sex").truthy = true)
    (hev : env.evaluateRisk reqBody = .error text) :
    postRiskCheck env store reqUserId reqBody =
      { status := 500,
        body := .message "Internal server error while processing and saving session.",
        store := store, effects := [.evaluateRisk reqBody] } := by
  have hbody := truthy_of_get_truthy reqBody "q_age" hage
  simp [postRiskCheck, hbody, hage, hsex, hev]

theorem postRiskCheck_stored (env : Env) (store : Store) (reqUserId reqBody : JsValue)
    (evaluation : Evaluation) (hage : (reqBody.get "q_age").truthy = true)
    (hsex : (reqBody.get "q_sex").truthy = true)
    (hev : env.evaluateRisk reqBody = .ok evaluation) (hst : env.storeAvailable = true) :
    postRiskCheck env store reqUserId reqBody =
      { status := 201,
        body := .result evaluation.riskLevel evaluation.score evaluation.recommendations
          store.nextId "Risk assessment complete and session saved.",
        store :=
          { sessions := store.sessions ++ [sessionFor env store reqUserId reqBody evaluation],
            nextId := store.nextId + 1 },
        effects :=
          [.evaluateRisk reqBody,
           .create { userId := JsValue.or reqUserId .null, answers := reqBody,
                     riskLevel := evaluation.riskLevel, score := evaluation.score,
                     recommendation := evaluation.recommendations }] } := by
  have hbody := truthy_of_get_truthy reqBody "q_age" hage
  simp [postRiskCheck, hbody, hage, hsex, hev, hst, RiskCheck.create, sessionFor]

/-- C5: when the body is absent (falsy), or `q_age` or `q_sex` is missing or
empty (falsy), the handler answers 400, makes no call at all (neither
`evaluateRisk` nor `RiskCheck.create`) and leaves the table as it was. -/
theorem missing_inputs_rejected (env : Env) (store : Store) (reqUserId reqBody : JsValue)
    (h : reqBody.truthy = false ∨ (reqBody.get "q_age").truthy = false ∨
      (reqBody.get "q_sex").truthy = false) :
    (postRiskCheck env store reqUserId reqBody).status = 400 ∧
    (postRiskCheck env store reqUserId reqBody).effects = [] ∧
    (postRiskCheck env store reqUserId reqBody).store = store := by
  rw [postRiskCheck_missing env store reqUserId reqBody h]
  exact ⟨rfl, rfl, rfl⟩

/-- C5, for a body whose `q_age` is the empty string. -/
theorem missing_inputs_rejected_witness :
    (emptyAge.get "q_age").truthy = false ∧
    (postRiskCheck sampleEnv emptyStore .undefined emptyAge).status = 400 ∧
    (postRiskCheck sampleEnv emptyStore .undefined emptyAge).effects = [] ∧
    (postRiskCheck sampleEnv emptyStore .undefined emptyAge).store = emptyStore :=
  ⟨by decide,
   missing_inputs_rejected sampleEnv emptyStore .undefined emptyAge (Or.inr (Or.inl (by decide)))⟩

theorem postRiskCheck_store_fails (env : Env) (store : Store) (reqUserId reqBody : JsValue)
    (evaluation : Evaluation) (hage : (reqBody.get "q_age").truthy = true)
    (hsex : (reqBody.get "q_sex").truthy = true)
    (hev : env.evaluateRisk reqBody = .ok evaluation) (hst : env.storeAvailable = false) :
    (postRiskCheck env store reqUserId reqBody).status = 500 ∧
    (postRiskCheck env store reqUserId reqBody).store = store := by
  have hbody := truthy_of_get_truthy reqBody "q_age" hage
  simp [postRiskCheck, hbody, hage, hsex, hev, hst, RiskCheck.create]

theorem postRiskCheck_status_of_present (env : Env) (store : Store) (reqUserId reqBody : JsValue)
    (hage : (reqBody.get "q_age").truthy = true) (hsex : (reqBody.get "q_sex").truthy = true) :
    (postRiskCheck env store reqUserId reqBody).status = 201 ∨
    (postRiskCheck env store reqUserId reqBody).status = 500 := by
  cases hev : env.evaluateRisk reqBody with
  | error text =>
    rw [postRiskCheck_throws env store reqUserId reqBody text hage hsex hev]
    exact Or.inr rfl
  | ok evaluation =>
    cases hst : env.storeAvailable with
    | true =>
      rw [postRiskCheck_stored env store reqUserId reqBody evaluation hage hsex hev hst]
      exact Or.inl rfl
    | false =>
      exact Or.inr (postRiskCheck_store_fails env store reqUserId reqBody evaluation
        hage hsex hev hst).1

theorem number_truthy_iff (n : Int) : (JsValue.number n).truthy = true ↔ n ≠ 0 := by
  simp [truthy]

/-- C6, as stated, fails: a submission with age 5 (below the minimum 10) and
sex present passes the guard of line 22; the handler hands it to
`evaluateRisk` and, the evaluation throwing, answers 500, not 400. -/
theorem age_five_not_answered_400 :
    ageFive.get "q_age" = .number 5 ∧
    (postRiskCheck sampleEnv emptyStore .undefined ageFive).status = 500 :=
  ⟨rfl, by decide⟩

/-- C6, amended: the handler has no bounds check. For a submission with a
numeric age `n` (in particular one below 10 or above 100) and the sex
present: when `n` is 0 the answer is 400 with no call and the table
unchanged; otherwise the answer is never 400, it is 500 with the table
unchanged whenever `evaluateRisk` throws, and 201 with the session appended
whenever `evaluateRisk` returns and the storage accepts the insert. -/
theorem age_bounds_not_checked (env : Env) (store : Store) (reqUserId reqBody : JsValue)
    (n : Int) (hage : reqBody.get "q_age" = .number n)
    (hsex : (reqBody.get "q_sex").truthy = true) :
    (n = 0 →
      (postRiskCheck env store reqUserId reqBody).status = 400 ∧
      (postRiskCheck env store reqUserId reqBody).effects = [] ∧
      (postRiskCheck env store reqUserId reqBody).store = store) ∧
    (n ≠ 0 →
      (postRiskCheck env store reqUserId reqBody).status ≠ 400 ∧
      (∀ text, env.evaluateRisk reqBody = .error text →
        (postRiskCheck env store reqUserId reqBody).status = 500 ∧
        (postRiskCheck env store reqUserId reqBody).store = store) ∧
      (∀ evaluation, env.evaluateRisk reqBody = .ok evaluation → env.storeAvailable = true →
        (postRiskCheck env store reqUserId reqBody).status = 201 ∧
        (postRiskCheck env store reqUserId reqBody).store.sessions =
          store.sessions ++ [sessionFor env store reqUserId reqBody evaluation])) := by
  constructor
  · intro hn
    have hfalsy : (reqBody.get "q_age").truthy = false := by
      rw [hage, hn]
      rfl
    rw [postRiskCheck_missing env store reqUserId reqBody (Or.inr (Or.inl hfalsy))]
    exact ⟨rfl, rfl, rfl⟩
  · intro hn
    have htruthy : (reqBody.get "q_age").truthy = true := by
      rw [hage]
      exact (number_truthy_iff n).mpr hn
    refine ⟨?_, ?_, ?_⟩
    · rcases postRiskCheck_status_of_present env store reqUserId reqBody htruthy hsex with h | h <;>
        rw [h] <;> decide
    · intro text hev
      rw [postRiskCheck_throws env store reqUserId reqBody text htruthy hsex hev]
      exact ⟨rfl, rfl⟩
    · intro evaluation hev hst
      rw [postRiskCheck_stored env store reqUserId reqBody evaluation htruthy hsex hev hst]
      exact ⟨rfl, rfl⟩

/-- C6 amended, at age 5 and at age 0 with sex Male. -/
theorem age_bounds_not_checked_witness :
    (ageFive.get "q_age" = .number 5 ∧ (ageFive.get "q_sex").truthy = true ∧
      (postRiskCheck sampleEnv emptyStore .undefined ageFive).status ≠ 400) ∧
    (postRiskCheck sampleEnv emptyStore .undefined
      (.object [("q_age", .number 0), ("q_sex", .string "Male")])).status = 400 :=
  ⟨⟨rfl, by decide,
    ((age_bounds_not_checked sampleEnv emptyStore .undefined ageFive 5 rfl (by decide)).2
      (by decide)).1⟩,
   ((age_bounds_not_checked sampleEnv emptyStore .undefined
      (.object [("q_age", .number 0), ("q_sex", .string "Male")]) 0 rfl (by decide)).1 rfl).1⟩

/-- C7, as stated, fails: a Female submission that also answers the
Male-only `q_urine_issue` is answered 201 and a session is stored. -/
theorem inapplicable_answer_stored :
    femaleWithUrineAnswer.get "q_sex" = .string "Female" ∧
    femaleWithUrineAnswer.get "q_urine_issue" = .string "Yes" ∧
    (postRiskCheck sampleEnv emptyStore .undefined femaleWithUrineAnswer).status = 201 ∧
    (postRiskCheck sampleEnv emptyStore .undefined femaleWithUrineAnswer).store.sessions.length
      = 1 :=
  ⟨rfl, rfl, by decide, by decide⟩

/-- C7, amended: the handler has no applicability check. A submission with
the age present that answers a question not applicable to the submitted sex
(`q_urine_issue` for Female, `q_bleeding` for Male) is never answered 400;
whenever `evaluateRisk` returns and the storage accepts the insert it is
answered 201 and stored with its answers unchanged, the inapplicable one
included. -/
theorem inapplicable_answer_not_rejected (env : Env) (store : Store)
    (reqUserId reqBody : JsValue) (hage : (reqBody.get "q_age").truthy = true)
    (hin : (reqBody.get "q_sex" = .string "Female" ∧
              (reqBody.get "q_urine_issue").truthy = true) ∨
           (reqBody.get "q_sex" = .string "Male" ∧
              (reqBody.get "q_bleeding").truthy = true)) :
    (postRiskCheck env store reqUserId reqBody).status ≠ 400 ∧
    (∀ evaluation, env.evaluateRisk reqBody = .ok evaluation → env.storeAvailable = true →
      (postRiskCheck env store reqUserId reqBody).status = 201 ∧
      (postRiskCheck env store reqUserId reqBody).store.sessions =
        store.sessions ++ [sessionFor env store reqUserId reqBody evaluation] ∧
      (sessionFor env store reqUserId reqBody evaluation).answers = reqBody) := by
  have hsex : (reqBody.get "q_sex").truthy = true := by
    rcases hin with ⟨h, _⟩ | ⟨h, _⟩ <;> rw [h] <;> decide
  constructor
  · rcases postRiskCheck_status_of_present env store reqUserId reqBody hage hsex with h | h <;>
      rw [h] <;> decide
  · intro evaluation hev hst
    rw [postRiskCheck_stored env store reqUserId reqBody evaluation hage hsex hev hst]
    exact ⟨rfl, rfl, rfl⟩

/-- C7 amended, at the Female submission that answers `q_urine_issue`. -/
theorem inapplicable_answer_not_rejected_witness :
    (femaleWithUrineAnswer.get "q_age").truthy = true ∧
    femaleWithUrineAnswer.get "q_sex" = .string "Female" ∧
    (femaleWithUrineAnswer.get "q_urine_issue").truthy = true ∧
    (postRiskCheck sampleEnv emptyStore .undefined femaleWithUrineAnswer).status ≠ 400 :=
  ⟨by decide, rfl, by decide,
   (inapplicable_answer_not_rejected sampleEnv emptyStore .undefined femaleWithUrineAnswer
      (by decide) (Or.inl ⟨rfl, by decide⟩)).1⟩

theorem protect_without_authorization (env : Env) (reqBody : JsValue) :
    protect env { authorization := none, body := reqBody } =
      .respond 401 "Not authorized, no token." := by
  simp [protect, optString, truthy]

theorem postRoute_of_next (env : Env) (store : Store) (req : Request) (userId : JsValue)
    (alsoSent : Option (Nat × String)) (h : protect env req = .next userId alsoSent) :
    postRoute env store req = postRiskCheck env store userId req.body := by
  simp [postRoute, h]

/-- C8, on the code: a request without an `Authorization` header, which is
what `submitRiskCheck` sends, is answered 401 by `protect`; the handler is
not run (no call is made) and no session is stored, whatever the body, the
evaluation and the table. -/
theorem post_without_authorization_rejected (env : Env) (store : Store) (reqBody : JsValue) :
    (postRoute env store { authorization := none, body := reqBody }).status = 401 ∧
    (postRoute env store { authorization := none, body := reqBody }).effects = [] ∧
    (postRoute env store { authorization := none, body := reqBody }).store = store := by
  have hprotect := protect_without_authorization env reqBody
  have hroute : postRoute env store { authorization := none, body := reqBody } =
      { status := 401, body := .message "Not authorized, no token.", store := store,
        effects := [] } := by
    simp [postRoute, hprotect]
  rw [hroute]
  exact ⟨rfl, rfl, rfl⟩

/-- C9: for every submission that passes the guard, is evaluated and is
stored, the response is 201 and carries the `riskLevel`, `score` and
`recommendations` of the evaluation of the submitted body together with the
id of the session just created, and that session, the one appended to the
table, carries the same three values. -/
theorem accepted_response_carries_evaluation (env : Env) (store : Store)
    (reqUserId reqBody : JsValue) (evaluation : Evaluation)
    (hage : (reqBody.get "q_age").truthy = true) (hsex : (reqBody.get "q_sex").truthy = true)
    (hev : env.evaluateRisk reqBody = .ok evaluation) (hst : env.storeAvailable = true) :
    ∃ session,
      (postRiskCheck env store reqUserId reqBody).store.sessions = store.sessions ++ [session] ∧
      (postRiskCheck env store reqUserId reqBody).status = 201 ∧
      (postRiskCheck env store reqUserId reqBody).body =
        .result evaluation.riskLevel evaluation.score evaluation.recommendations session.id
          "Risk assessment complete and session saved." ∧
      session.riskLevel = evaluation.riskLevel ∧ session.score = evaluation.score ∧
      session.recommendation = evaluation.recommendations := by
  refine ⟨sessionFor env store reqUserId reqBody evaluation, ?_⟩
  rw [postRiskCheck_stored env store reqUserId reqBody evaluation hage hsex hev hst]
  exact ⟨rfl, rfl, rfl, rfl, rfl, rfl⟩

/-- C9, at the first example scenario submitted by user 7 to an empty table. -/
theorem accepted_response_carries_evaluation_witness :
    (femaleAtThirtyFour.get "q_age").truthy = true ∧
    (femaleAtThirtyFour.get "q_sex").truthy = true ∧
    sampleEnv.evaluateRisk femaleAtThirtyFour = .ok highEvaluation ∧
    sampleEnv.storeAvailable = true ∧
    ∃ session,
      (postRiskCheck sampleEnv emptyStore (.number 7) femaleAtThirtyFour).store.sessions
        = emptyStore.sessions ++ [session] ∧
      (postRiskCheck sampleEnv emptyStore (.number 7) femaleAtThirtyFour).status = 201 ∧
      (postRiskCheck sampleEnv emptyStore (.number 7) femaleAtThirtyFour).body =
        .result highEvaluation.riskLevel highEvaluation.score highEvaluation.recommendations
          session.id "Risk assessment complete and session saved." ∧
      session.riskLevel = highEvaluation.riskLevel ∧ session.score = highEvaluation.score ∧
      session.recommendation = highEvaluation.recommendations :=
  ⟨by decide, by decide, rfl, rfl,
   accepted_response_carries_evaluation sampleEnv emptyStore (.number 7) femaleAtThirtyFour
     highEvaluation (by decide) (by decide) rfl rfl⟩

/-- C10: for every accepted submission, the session appended to the table
has the request body as its answers, unchanged, and `req.userId || null` as
its userId: the caller identity when the request carries one (a truthy
`req.userId`), and null when `req.userId` is undefined. -/
theorem stored_session_keeps_answers_and_owner (env : Env) (store : Store)
    (reqUserId reqBody : JsValue) (evaluation : Evaluation)
    (hage : (reqBody.get "q_age").truthy = true) (hsex : (reqBody.get "q_sex").truthy = true)
    (hev : env.evaluateRisk reqBody = .ok evaluation) (hst : env.storeAvailable = true) :
    ∃ session,
      (postRiskCheck env store reqUserId reqBody).store.sessions = store.sessions ++ [session] ∧
      session.answers = reqBody ∧
      session.userId = JsValue.or reqUserId .null ∧
      (reqUserId.truthy = true → session.userId = reqUserId) ∧
      (reqUserId = .undefined → session.userId = .null) := by
  refine ⟨sessionFor env store reqUserId reqBody evaluation, ?_⟩
  rw [postRiskCheck_stored env store reqUserId reqBody evaluation hage hsex hev hst]
  refine ⟨rfl, rfl, rfl, ?_, ?_⟩
  · intro h
    simp [sessionFor, JsValue.or, h]
  · intro h
    subst h
    rfl

/-- C10, at the first example scenario submitted by user 7 to an empty
table. -/
theorem stored_session_keeps_answers_and_owner_witness :
    (femaleAtThirtyFour.get "q_age").truthy = true ∧
    (femaleAtThirtyFour.get "q_sex").truthy = true ∧
    sampleEnv.evaluateRisk femaleAtThirtyFour = .ok highEvaluation ∧
    sampleEnv.storeAvailable = true ∧
    ∃ session,
      (postRiskCheck sampleEnv emptyStore (.number 7) femaleAtThirtyFour).store.sessions
        = emptyStore.sessions ++ [session] ∧
      session.answers = femaleAtThirtyFour ∧
      session.userId = JsValue.or (.number 7) .null ∧
      ((JsValue.number 7).truthy = true → session.userId = .number 7) ∧
      (JsValue.number 7 = .undefined → session.userId = .null) :=
  ⟨by decide, by decide, rfl, rfl,
   stored_session_keeps_answers_and_owner sampleEnv emptyStore (.number 7) femaleAtThirtyFour
     highEvaluation (by decide) (by decide) rfl rfl⟩

/-! ## The history route -/

theorem strictEq_eq (a b : JsValue) (h : strictEq a b = true) : a = b := by
  cases a <;> cases b <;> simp_all [strictEq]

theorem mem_ownedNewestFirst (store : Store) (userId : JsValue) (s : Session) :
    s ∈ ownedNewestFirst store userId ↔ s ∈ store.sessions ∧ strictEq s.userId userId = true := by
  simp [ownedNewestFirst, List.mem_insertionSort, List.mem_filter]

theorem findAll_eq_ok (available : Bool) (store : Store) (userId : JsValue)
    (history : List HistoryRow) (h : RiskCheck.findAll available store userId = .ok history) :
    history = (ownedNewestFirst store userId).map Session.attributes := by
  unfold RiskCheck.findAll at h
  cases available
  · simp at h
  · cases userId <;> simp at h <;> exact h.symm

theorem findAll_of_available (store : Store) (userId : JsValue) (h : userId ≠ .undefined) :
    RiskCheck.findAll true store userId
      = .ok ((ownedNewestFirst store userId).map Session.attributes) := by
  unfold RiskCheck.findAll
  cases userId <;> simp at h ⊢

theorem progressData_attributes (sessions : List Session) :
    progressData (sessions.map Session.attributes) = sessions.map Session.progressEntry := by
  simp [progressData, Session.attributes, Session.progressEntry, Function.comp_def]

theorem progressOf_getProgress_ok (env : Env) (store : Store) (userId : JsValue)
    (history : List HistoryRow)
    (h : RiskCheck.findAll env.storeAvailable store userId = .ok history) :
    getProgress env store userId =
      { status := 200,
        body := .progress (progressData history)
          (if history.length = 0 then some "No past risk sessions found for this user."
            else none),
        store := store, effects := [.findAll userId] } := by
  unfold getProgress
  simp only [h]
  by_cases hlen : history.length = 0
  · have hnil : history = [] := List.length_eq_zero.mp hlen
    subst hnil
    simp [progressData]
  · simp [hlen]

theorem getProgress_error (env : Env) (store : Store) (userId : JsValue) (text : String)
    (h : RiskCheck.findAll env.storeAvailable store userId = .error text) :
    getProgress env store userId =
      { status := 500, body := .message "Internal server error retrieving history.",
        store := store, effects := [.findAll userId] } := by
  unfold getProgress
  simp only [h]

theorem progressOf_getProgress (env : Env) (store : Store) (userId : JsValue) :
    progressOf (getProgress env store userId) = [] ∨
    progressOf (getProgress env store userId)
      = (ownedNewestFirst store userId).map Session.progressEntry := by
  cases h : RiskCheck.findAll env.storeAvailable store userId with
  | error text =>
    rw [getProgress_error env store userId text h]
    exact Or.inl rfl
  | ok history =>
    rw [progressOf_getProgress_ok env store userId history h]
    have hh := findAll_eq_ok _ _ _ _ h
    subst hh
    exact Or.inr (progressData_attributes _)

/-- C11: every entry of the progress list returned for a caller is the
summary of a stored session whose userId equals the id of that caller; and,
ids being distinct in the table, a session stored with a different userId
has its id nowhere in that list. -/
theorem progress_only_own_sessions (env : Env) (store : Store) (userId : JsValue) :
    (∀ entry ∈ progressOf (getProgress env store userId),
      ∃ s ∈ store.sessions, s.userId = userId ∧ entry = s.progressEntry) ∧
    ((store.sessions.map (fun s => s.id)).Nodup →
      ∀ s ∈ store.sessions, s.userId ≠ userId →
        s.id ∉ (progressOf (getProgress env store userId)).map (fun entry => entry.id)) := by
  have hown : ∀ entry ∈ progressOf (getProgress env store userId),
      ∃ s ∈ store.sessions, s.userId = userId ∧ entry = s.progressEntry := by
    intro entry hentry
    rcases progressOf_getProgress env store userId with h | h
    · rw [h] at hentry
      exact absurd hentry (List.not_mem_nil _)
    · rw [h] at hentry
      obtain ⟨s, hs, rfl⟩ := List.mem_map.mp hentry
      have hmem := (mem_ownedNewestFirst store userId s).mp hs
      exact ⟨s, hmem.1, strictEq_eq _ _ hmem.2, rfl⟩
  refine ⟨hown, ?_⟩
  intro hnodup s hs hne hid
  obtain ⟨entry, hentry, heq⟩ := List.mem_map.mp hid
  obtain ⟨s', hs', huser, rfl⟩ := hown entry hentry
  have hsame : s' = s := List.inj_on_of_nodup_map hnodup hs' hs heq
  exact hne (hsame ▸ huser)

/-- C11, on a table with sessions of users 7 and 9: the list for user 7 holds
the ids 3 and 1, not the id 2 of the session of user 9. -/
theorem progress_only_own_sessions_witness :
    (twoOwnerStore.sessions.map (fun s => s.id)).Nodup ∧
    firstOfNine ∈ twoOwnerStore.sessions ∧ firstOfNine.userId ≠ .number 7 ∧
    firstOfNine.id ∉
      (progressOf (getProgress sampleEnv twoOwnerStore (.number 7))).map
        (fun entry => entry.id) :=
  ⟨by decide, by simp [twoOwnerStore], by simp [firstOfNine],
   (progress_only_own_sessions sampleEnv twoOwnerStore (.number 7)).2 (by decide)
     firstOfNine (by simp [twoOwnerStore]) (by simp [firstOfNine])⟩

theorem ownedNewestFirst_sorted (store : Store) (userId : JsValue) :
    List.Pairwise newerFirst (ownedNewestFirst store userId) :=
  List.sorted_insertionSort newerFirst _

/-- C12, as stated, fails: after user 7 submitted twice at the same clock
reading, the two entries of the progress list carry the same creation time,
so the list is not strictly descending. -/
theorem progress_tie_not_strict :
    (progressOf (getProgress sampleEnv tieStore (.number 7))).map (fun entry => entry.date)
      = [1000, 1000] ∧
    ¬ List.Pairwise (fun a b : ProgressEntry => b.date < a.date)
      (progressOf (getProgress sampleEnv tieStore (.number 7))) :=
  ⟨by decide, by decide⟩

/-- C12, amended: the progress list is ordered by creation time descending,
each entry being created no earlier than every entry after it; the order is
strict whenever the sessions of the owner have pairwise distinct creation
times. -/
theorem progress_newest_first (env : Env) (store : Store) (userId : JsValue) :
    List.Pairwise (fun a b : ProgressEntry => b.date ≤ a.date)
      (progressOf (getProgress env store userId)) ∧
    (((store.sessions.filter (fun s => strictEq s.userId userId)).map
        (fun s => s.createdAt)).Nodup →
      List.Pairwise (fun a b : ProgressEntry => b.date < a.date)
        (progressOf (getProgress env store userId))) := by
  have hsorted := ownedNewestFirst_sorted store userId
  rcases progressOf_getProgress env store userId with h | h
  · rw [h]
    exact ⟨List.Pairwise.nil, fun _ => List.Pairwise.nil⟩
  · rw [h]
    refine ⟨List.pairwise_map.mpr hsorted, ?_⟩
    intro hnodup
    have hperm : List.Perm (ownedNewestFirst store userId)
        (store.sessions.filter (fun s => strictEq s.userId userId)) :=
      List.perm_insertionSort newerFirst _
    have hnodup' : ((ownedNewestFirst store userId).map (fun s => s.createdAt)).Nodup :=
      ((hperm.map _).nodup_iff).mpr hnodup
    have hne : List.Pairwise (fun a b : Session => a.createdAt ≠ b.createdAt)
        (ownedNewestFirst store userId) := List.pairwise_map.mp hnodup'
    refine List.pairwise_map.mpr ((hsorted.and hne).imp ?_)
    intro a b hab
    exact Nat.lt_of_le_of_ne hab.1 (fun heq => hab.2 heq.symm)

/-- C12 amended, on the table with two sessions of user 7 created at times
1000 and 1002: the list is strictly descending. -/
theorem progress_newest_first_witness :
    ((twoOwnerStore.sessions.filter (fun s => strictEq s.userId (.number 7))).map
        (fun s => s.createdAt)).Nodup ∧
    List.Pairwise (fun a b : ProgressEntry => b.date < a.date)
      (progressOf (getProgress sampleEnv twoOwnerStore (.number 7))) :=
  ⟨by decide, (progress_newest_first sampleEnv twoOwnerStore (.number 7)).2 (by decide)⟩

theorem map_key_ownedNewestFirst (store : Store) (userId : JsValue) :
    (ownedNewestFirst store userId).map Session.listingKey =
      ((store.sessions.map Session.listingKey).filter (keyOwnedBy userId)).insertionSort
        keyNewerFirst := by
  unfold ownedNewestFirst
  rw [List.map_insertionSort (r := newerFirst) (s := keyNewerFirst) Session.listingKey _
    (fun a _ b _ => Iff.rfl), List.filter_map]
  rfl

theorem progressEntry_eq_key (sessions : List Session) :
    sessions.map Session.progressEntry
      = (sessions.map Session.listingKey).map keyProgressEntry := by
  simp [Session.progressEntry, Session.listingKey, keyProgressEntry, Function.comp_def]

theorem progressOf_congr (env : Env) (store store' : Store) (userId : JsValue)
    (hkey : store'.sessions.map Session.listingKey = store.sessions.map Session.listingKey) :
    progressOf (getProgress env store' userId) = progressOf (getProgress env store userId) := by
  have hentries : (ownedNewestFirst store' userId).map Session.progressEntry
      = (ownedNewestFirst store userId).map Session.progressEntry := by
    rw [progressEntry_eq_key, progressEntry_eq_key, map_key_ownedNewestFirst,
      map_key_ownedNewestFirst, hkey]
  cases havail : env.storeAvailable with
  | false => simp [getProgress, RiskCheck.findAll, havail, progressOf]
  | true =>
    by_cases hid : userId = .undefined
    · subst hid
      simp [getProgress, RiskCheck.findAll, havail, progressOf]
    · have h := findAll_of_available store userId hid
      have h' := findAll_of_available store' userId hid
      rw [← havail] at h h'
      rw [progressOf_getProgress_ok env store userId _ h,
        progressOf_getProgress_ok env store' userId _ h']
      simp only [progressOf, progressData_attributes, hentries]

/-- C13: for every result of the history query, the response is 200 and its
progress list has the length and order of the result, the entry at each
position carrying the id, creation time, risk band and score of the row at
that position; the list does not depend on the answers or recommendations of
the stored sessions: two tables that agree on everything else give the same
list. -/
theorem progress_list_mirrors_query_result (env : Env) (store : Store) (userId : JsValue)
    (history : List HistoryRow)
    (h : RiskCheck.findAll env.storeAvailable store userId = .ok history) :
    (getProgress env store userId).status = 200 ∧
    (progressOf (getProgress env store userId)).length = history.length ∧
    (∀ i : Nat, (progressOf (getProgress env store userId))[i]? =
      (history[i]?).map (fun row =>
        { id := row.id, date := row.createdAt, risk := row.riskLevel, score := row.score })) ∧
    (∀ store' : Store,
      store'.sessions.map Session.listingKey = store.sessions.map Session.listingKey →
      progressOf (getProgress env store' userId) = progressOf (getProgress env store userId)) := by
  refine ⟨?_, ?_, ?_, fun store' hkey => progressOf_congr env store store' userId hkey⟩
  · rw [progressOf_getProgress_ok env store userId history h]
  · rw [progressOf_getProgress_ok env store userId history h]
    simp [progressOf, progressData]
  · intro i
    rw [progressOf_getProgress_ok env store userId history h]
    simp [progressOf, progressData]

/-- C13, on the table with sessions of users 7 and 9, for user 7. -/
theorem progress_list_mirrors_query_result_witness :
    RiskCheck.findAll sampleEnv.storeAvailable twoOwnerStore (.number 7)
      = .ok [secondOfSeven.attributes, firstOfSeven.attributes] ∧
    (getProgress sampleEnv twoOwnerStore (.number 7)).status = 200 ∧
    (progressOf (getProgress sampleEnv twoOwnerStore (.number 7))).length = 2 :=
  ⟨rfl,
   (progress_list_mirrors_query_result sampleEnv twoOwnerStore (.number 7)
      [secondOfSeven.attributes, firstOfSeven.attributes] rfl).1,
   (progress_list_mirrors_query_result sampleEnv twoOwnerStore (.number 7)
      [secondOfSeven.attributes, firstOfSeven.attributes] rfl).2.1⟩

/-- C14: for a caller identity with no stored session, the storage answering,
the history handler responds 200 with an empty progress list, having queried
the table and left it as it was. -/
theorem no_sessions_empty_progress (env : Env) (store : Store) (userId : JsValue)
    (havail : env.storeAvailable = true) (hid : userId ≠ .undefined)
    (hnone : ∀ s ∈ store.sessions, s.userId ≠ userId) :
    getProgress env store userId =
      { status := 200,
        body := .progress [] (some "No past risk sessions found for this user."),
        store := store, effects := [.findAll userId] } := by
  have hempty : ownedNewestFirst store userId = [] := by
    have hfilter : store.sessions.filter (fun s => strictEq s.userId userId) = [] := by
      apply List.filter_eq_nil_iff.mpr
      intro s hs hmatch
      exact hnone s hs (strictEq_eq _ _ hmatch)
    simp [ownedNewestFirst, hfilter]
  have h := findAll_of_available store userId hid
  rw [hempty, ← havail] at h
  rw [progressOf_getProgress_ok env store userId _ h]
  simp [progressData]

/-- C14, on the table with sessions of users 7 and 9, for user 5. -/
theorem no_sessions_empty_progress_witness :
    sampleEnv.storeAvailable = true ∧ JsValue.number 5 ≠ .undefined ∧
    (∀ s ∈ twoOwnerStore.sessions, s.userId ≠ .number 5) ∧
    getProgress sampleEnv twoOwnerStore (.number 5) =
      { status := 200,
        body := .progress [] (some "No past risk sessions found for this user."),
        store := twoOwnerStore, effects := [.findAll (.number 5)] } :=
  ⟨rfl, by simp, by simp [twoOwnerStore, firstOfSeven, firstOfNine, secondOfSeven],
   no_sessions_empty_progress sampleEnv twoOwnerStore (.number 5) rfl (by simp)
     (by simp [twoOwnerStore, firstOfSeven, firstOfNine, secondOfSeven])⟩

theorem protect_of_not_verified (env : Env) (req : Request)
    (h : carriesVerifiedToken env req = false) :
    ∃ text, protect env req = .respond 401 text := by
  unfold carriesVerifiedToken at h
  unfold protect
  cases hauth : req.authorization with
  | none => exact ⟨"Not authorized, no token.", by simp [optString, truthy]⟩
  | some header =>
    rw [hauth] at h
    by_cases hstarts : "Bearer".data.isPrefixOf header.data = true
    · have hnone : verifyToken env (secondField header) = none := by
        cases hv : verifyToken env (secondField header) with
        | none => rfl
        | some decoded => simp [hstarts, hv] at h
      by_cases htruthy : (optString (some header)).truthy = true
      · exact ⟨"Not authorized, token failed.", by simp [htruthy, hstarts, hnone]⟩
      · exact ⟨"Not authorized, no token.", by simp [htruthy]⟩
    · exact ⟨"Not authorized, no token.", by simp [hstarts]⟩

/-- C15: a history request that does not carry a bearer token that verifies
is answered 401 by `protect`; the handler is not run, so the table is not
queried (no call is made) and is left as it was. -/
theorem progress_requires_verified_token (env : Env) (store : Store) (req : Request)
    (h : carriesVerifiedToken env req = false) :
    (getProgressRoute env store req).status = 401 ∧
    (getProgressRoute env store req).effects = [] ∧
    (getProgressRoute env store req).store = store := by
  obtain ⟨text, hprotect⟩ := protect_of_not_verified env req h
  have hroute : getProgressRoute env store req =
      { status := 401, body := .message text, store := store, effects := [] } := by
    simp [getProgressRoute, hprotect]
  rw [hroute]
  exact ⟨rfl, rfl, rfl⟩

/-- C15, for a request whose header is `Bearer abc`, a token that does not
verify. -/
theorem progress_requires_verified_token_witness :
    carriesVerifiedToken sampleEnv staleTokenRequest = false ∧
    (getProgressRoute sampleEnv twoOwnerStore staleTokenRequest).status = 401 ∧
    (getProgressRoute sampleEnv twoOwnerStore staleTokenRequest).effects = [] ∧
    (getProgressRoute sampleEnv twoOwnerStore staleTokenRequest).store = twoOwnerStore :=
  ⟨by decide,
   progress_requires_verified_token sampleEnv twoOwnerStore staleTokenRequest (by decide)⟩

/-! ## The router: append-only table, absent detail route -/

theorem postRiskCheck_sessions (env : Env) (store : Store) (reqUserId reqBody : JsValue) :
    ∃ added, (postRiskCheck env store reqUserId reqBody).store.sessions
      = store.sessions ++ added ∧ added.length ≤ 1 := by
  by_cases hage : (reqBody.get "q_age").truthy = true
  · by_cases hsex : (reqBody.get "q_sex").truthy = true
    · cases hev : env.evaluateRisk reqBody with
      | error text =>
        rw [postRiskCheck_throws env store reqUserId reqBody text hage hsex hev]
        exact ⟨[], by simp, by simp⟩
      | ok evaluation =>
        cases hst : env.storeAvailable with
        | true =>
          rw [postRiskCheck_stored env store reqUserId reqBody evaluation hage hsex hev hst]
          exact ⟨[sessionFor env store reqUserId reqBody evaluation], rfl, by simp⟩
        | false =>
          rw [(postRiskCheck_store_fails env store reqUserId reqBody evaluation
            hage hsex hev hst).2]
          exact ⟨[], by simp, by simp⟩
    · rw [postRiskCheck_missing env store reqUserId reqBody
        (Or.inr (Or.inr (by simpa using hsex)))]
      exact ⟨[], by simp, by simp⟩
  · rw [postRiskCheck_missing env store reqUserId reqBody (Or.inr (Or.inl (by simpa using hage)))]
    exact ⟨[], by simp, by simp⟩

theorem postRoute_sessions (env : Env) (store : Store) (req : Request) :
    ∃ added, (postRoute env store req).store.sessions = store.sessions ++ added ∧
      added.length ≤ 1 := by
  unfold postRoute
  cases protect env req with
  | next userId alsoSent => exact postRiskCheck_sessions env store userId req.body
  | respond status text => exact ⟨[], by simp, by simp⟩

theorem getProgress_store (env : Env) (store : Store) (userId : JsValue) :
    (getProgress env store userId).store = store := by
  cases h : RiskCheck.findAll env.storeAvailable store userId with
  | error text => rw [getProgress_error env store userId text h]
  | ok history => rw [progressOf_getProgress_ok env store userId history h]

theorem getProgressRoute_store (env : Env) (store : Store) (req : Request) :
    (getProgressRoute env store req).store = store := by
  unfold getProgressRoute
  cases protect env req with
  | next userId alsoSent => exact getProgress_store env store userId
  | respond status text => rfl

/-- C16: whatever request the router of the risk-check routes handles, the
table afterwards is the table before followed by at most one new session, so
every session present before is still present, at its place, with all its
fields; a GET request adds none. -/
theorem sessions_append_only (env : Env) (store : Store) (method : Method) (path : String)
    (req : Request) :
    ∃ added,
      (riskRouter env store method path req).store.sessions = store.sessions ++ added ∧
      added.length ≤ 1 ∧ (method = .GET → added = []) ∧
      ∀ (i : Nat) (s : Session), store.sessions[i]? = some s →
        (riskRouter env store method path req).store.sessions[i]? = some s := by
  have hkept : ∀ (after added : List Session), after = store.sessions ++ added →
      ∀ (i : Nat) (s : Session), store.sessions[i]? = some s → after[i]? = some s := by
    intro after added hafter i s hs
    have hi : i < store.sessions.length := (List.getElem?_eq_some_iff.mp hs).1
    rw [hafter, List.getElem?_append_left hi]
    exact hs
  unfold riskRouter
  cases method with
  | POST =>
    by_cases hpath : path = "/"
    · obtain ⟨added, hadded, hlen⟩ := postRoute_sessions env store req
      refine ⟨added, ?_, hlen, by simp, ?_⟩
      · simpa [hpath] using hadded
      · simpa [hpath] using hkept _ added hadded
    · exact ⟨[], by simp [hpath], by simp, by simp, by simp [hpath]⟩
  | GET =>
    by_cases hpath : path = "/progress"
    · refine ⟨[], ?_, by simp, by simp, ?_⟩
      · simp [hpath, getProgressRoute_store]
      · simp [hpath, getProgressRoute_store]
    · exact ⟨[], by simp [hpath], by simp, by simp, by simp [hpath]⟩

theorem sessionDetailPath_ne_progress (id : String) : sessionDetailPath id ≠ "/progress" := by
  intro h
  have hdata := congrArg String.data h
  simp [sessionDetailPath, String.data_append] at hdata

/-- C17, on the code: the router has no route for `GET /session/<id>`. For
every id, stored or not, the request of the details page is handled by no
route and answered 404; the table is not read. -/
theorem session_detail_route_missing (env : Env) (store : Store) (req : Request)
    (id : String) :
    riskRouter env store .GET (sessionDetailPath id) req =
      { status := 404, body := .unhandled, store := store, effects := [] } := by
  have hpath := sessionDetailPath_ne_progress id
  simp [riskRouter, hpath]

/-! ## The quiz page: the last step -/

theorem findIndexFrom_lt (p : Question → Bool) (qs : List Question) (start : Nat) :
    findIndexFrom p start qs < (start : Int) + (qs.length : Int) ∨
      (qs = [] ∧ findIndexFrom p start qs = -1) := by
  induction qs generalizing start with
  | nil => exact Or.inr ⟨rfl, rfl⟩
  | cons q rest ih =>
    left
    by_cases hp : p q = true
    · simp only [findIndexFrom, hp, if_true, List.length_cons]
      push_cast
      omega
    · simp only [findIndexFrom, hp, List.length_cons]
      rcases ih (start + 1) with h | ⟨_, h⟩
      · push_cast at h ⊢
        simpa using (by omega : findIndexFrom p (start + 1) rest
          < (start : Int) + ((rest.length : Int) + 1))
      · rw [h]
        push_cast
        omega

/-- Where the two decisions do agree: when the position of the presented
question in the resolved list is its catalog index `step`, the button reads
"Get Results" exactly when the click submits. -/
theorem last_step_decisions_agree (s : QuizState) (current : Question)
    (hcurrent : currentQuestion s = some current) (hloading : s.loading = false)
    (hanswered : (s.answers.get current.id).truthy = true)
    (hposition : findIndex (fun q => q.id == current.id) (filteredQuestions s.answers)
      = (s.step : Int)) :
    nextButtonLabel s = "Get Results" ↔ (handleNext s).submits = true := by
  have hbound := findIndexFrom_lt (fun q => q.id == current.id) (filteredQuestions s.answers) 0
  have hlt : (s.step : Int) < ((filteredQuestions s.answers).length : Int) := by
    unfold findIndex at hposition
    rcases hbound with h | ⟨_, h⟩
    · rw [hposition] at h
      simpa using h
    · rw [hposition] at h
      omega
  unfold nextButtonLabel handleNext
  simp only [hcurrent, hloading, hanswered, hposition]
  by_cases hlast : (s.step : Int) = ((filteredQuestions s.answers).length : Int) - 1
  · simp [hlast, NextResult.submits]
  · have hless : (s.step : Int) < ((filteredQuestions s.answers).length : Int) - 1 := by omega
    simp [hlast, hless, NextResult.submits]

/-- C18, on the code: for a Male respondent the two decisions disagree. At
step 5 the page presents `q_bleeding`, which is not in the resolved list: the
button reads "Get Results" but the click advances to step 6. At step 6
(`q_urine_issue`, the last resolved question) the button reads "Next →" but
the click submits. -/
theorem last_step_decisions_disagree :
    (maleAtStepFive.step = 5 ∧ maleAtStepFive.answers.get "q_sex" = .string "Male" ∧
      (currentQuestion maleAtStepFive).map (fun q => q.id) = some "q_bleeding" ∧
      nextButtonLabel maleAtStepFive = "Get Results" ∧
      (handleNext maleAtStepFive).submits = false) ∧
    (maleAtStepSix.step = 6 ∧
      (currentQuestion maleAtStepSix).map (fun q => q.id) = some "q_urine_issue" ∧
      nextButtonLabel maleAtStepSix = "Next →" ∧
      (handleNext maleAtStepSix).submits = true) :=
  ⟨⟨by decide, by rfl, by decide, by decide, by decide⟩,
   ⟨by decide, by decide, by decide, by decide⟩⟩

/-! ## The details page: the urgent-action item -/

/-- C19, as stated, fails: for a session of band HIGH with one
recommendation the list shown starts with that recommendation; the
urgent-action item comes after it. -/
theorem urgent_action_not_first :
    highSessionView.riskLevel = .string "HIGH" ∧
    shownRecommendations highSessionView
      = [.recommendation "Have the lump examined.", .urgentAction] ∧
    (shownRecommendations highSessionView).head? ≠ some .urgentAction :=
  ⟨rfl, by decide, by decide⟩

/-- C19, amended: the details page shows the recommendations of the session
in their order and, exactly when the band is HIGH, the urgent-action item
after all of them, as the last item, whichever recommendations there are;
when the band is not HIGH the page adds no urgent-action item. -/
theorem urgent_action_shown_last (session : SessionView) :
    (session.riskLevel = .string "HIGH" →
      shownRecommendations session =
        (session.recommendations.getD []).map ListItem.recommendation
          ++ [ListItem.urgentAction]) ∧
    (session.riskLevel ≠ .string "HIGH" →
      shownRecommendations session =
        (session.recommendations.getD []).map ListItem.recommendation ∧
      ListItem.urgentAction ∉ shownRecommendations session) := by
  have hitems : (match session.recommendations with
      | some recommendations => recommendations.map ListItem.recommendation
      | none => []) = (session.recommendations.getD []).map ListItem.recommendation := by
    cases session.recommendations <;> rfl
  constructor
  · intro hhigh
    unfold shownRecommendations
    rw [hitems, hhigh]
    rfl
  · intro hnot
    have hfalse : strictEq session.riskLevel (.string "HIGH") = false := by
      cases hs : strictEq session.riskLevel (.string "HIGH") with
      | false => rfl
      | true => exact absurd (strictEq_eq _ _ hs) hnot
    have hshown : shownRecommendations session =
        (session.recommendations.getD []).map ListItem.recommendation := by
      unfold shownRecommendations
      rw [hitems, hfalse]
      simp
    refine ⟨hshown, ?_⟩
    rw [hshown]
    simp

/-- C19 amended, on a HIGH session with one recommendation and on the same
session with band LOW. -/
theorem urgent_action_shown_last_witness :
    (highSessionView.riskLevel = .string "HIGH" ∧
      shownRecommendations highSessionView =
        (highSessionView.recommendations.getD []).map ListItem.recommendation
          ++ [ListItem.urgentAction]) ∧
    ListItem.urgentAction ∉
      shownRecommendations { highSessionView with riskLevel := .string "LOW" } :=
  ⟨⟨rfl, (urgent_action_shown_last highSessionView).1 rfl⟩,
   ((urgent_action_shown_last { highSessionView with riskLevel := .string "LOW" }).2
      (by simp)).2⟩

/-! ## The catalog: no forward references -/

theorem appliesTo_after_sex :
    ∀ q ∈ QUESTIONS, ∀ v ∈ q.appliesTo,
      QUESTIONS.indexOf sexQuestion < QUESTIONS.indexOf q ∧ v ∈ sexQuestion.options := by
  decide

/-- C20: every catalog question with an `appliesTo` stands after `q_sex` in
the catalog and names one of the options of `q_sex`; whether a question
applies depends on the answers through `answers.q_sex` only; hence whether
the question at a catalog position applies is the same for two answer sets
that agree on the questions at the positions before it. -/
theorem applicability_depends_on_earlier_answers :
    (∀ q ∈ QUESTIONS, ∀ v, q.appliesTo = some v →
      QUESTIONS.indexOf sexQuestion < QUESTIONS.indexOf q ∧ v ∈ sexQuestion.options) ∧
    (∀ (q : Question) (a b : JsValue), a.get "q_sex" = b.get "q_sex" →
      appliesToAnswers a q = appliesToAnswers b q) ∧
    (∀ q ∈ QUESTIONS, ∀ a b : JsValue,
      (∀ p ∈ QUESTIONS, QUESTIONS.indexOf p < QUESTIONS.indexOf q → a.get p.id = b.get p.id) →
      appliesToAnswers a q = appliesToAnswers b q) := by
  have hsexOnly : ∀ (q : Question) (a b : JsValue), a.get "q_sex" = b.get "q_sex" →
      appliesToAnswers a q = appliesToAnswers b q := by
    intro q a b h
    simp only [appliesToAnswers, h]
  refine ⟨fun q hq v hv => appliesTo_after_sex q hq v hv, hsexOnly, ?_⟩
  intro q hq a b hagree
  cases happlies : q.appliesTo with
  | none => rw [appliesToAnswers_none a q happlies, appliesToAnswers_none b q happlies]
  | some v =>
    have hbefore := (appliesTo_after_sex q hq v happlies).1
    have hsex : a.get sexQuestion.id = b.get sexQuestion.id :=
      hagree sexQuestion (by decide) hbefore
    exact hsexOnly q a b hsex

/-! ## The history page: the fields it reads -/

/-- C21, on the code: of the four fields the history page reads from an
entry, `id` and `score` are there with the values of the session, while
`createdAt` and `riskLevel` are `undefined` on every entry: the endpoint
names them `date` and `risk`. -/
theorem history_page_reads_missing_fields (entry : ProgressEntry) :
    (sessionCard entry.toJson).id = .number entry.id ∧
    (sessionCard entry.toJson).score = .number entry.score ∧
    (sessionCard entry.toJson).createdAt = .undefined ∧
    (sessionCard entry.toJson).riskLevel = .undefined ∧
    entry.toJson.get "date" = .number entry.date ∧
    entry.toJson.get "risk" = .string entry.risk.name :=
  ⟨rfl, rfl, rfl, rfl, rfl, rfl⟩

/-! ## The middlewares -/

theorem verifyToken_truthy (env : Env) (token decoded : JsValue)
    (h : verifyToken env token = some decoded) : token.truthy = true := by
  cases token <;> simp [verifyToken] at h
  rename_i s
  by_cases hs : s = ""
  · simp [hs] at h
  · simp [truthy, hs]

theorem protect_of_verified (env : Env) (req : Request)
    (h : carriesVerifiedToken env req = true) :
    ∃ header decoded, req.authorization = some header ∧
      verifyToken env (secondField header) = some decoded ∧
      protect env req = .next (decoded.get "id") none := by
  unfold carriesVerifiedToken at h
  cases hauth : req.authorization with
  | none => simp [hauth] at h
  | some header =>
    rw [hauth] at h
    simp only [Bool.and_eq_true] at h
    obtain ⟨hstarts, hsome⟩ := h
    obtain ⟨decoded, hdecoded⟩ := Option.isSome_iff_exists.mp hsome
    have htoken := verifyToken_truthy env _ decoded hdecoded
    have hheader : (optString (some header)).truthy = true := by
      cases hempty : decide (header = "") with
      | true =>
        have : header = "" := of_decide_eq_true hempty
        subst this
        exact absurd hstarts (by decide)
      | false =>
        have : header ≠ "" := of_decide_eq_false hempty
        simp [optString, truthy, this]
    refine ⟨header, decoded, rfl, hdecoded, ?_⟩
    unfold protect
    simp [hauth, hheader, hstarts, hdecoded, htoken]

/-- C25: for every request, `protect` either calls `next` once, with
`req.userId` set to the `id` of the decoded token and without sending any
response, or sends one 401 response and does not call `next`; the first
happens exactly when the `Authorization` header starts with `Bearer` and its
second space-separated field verifies. -/
theorem protect_next_iff_verified (env : Env) (req : Request) :
    (carriesVerifiedToken env req = true →
      ∃ header decoded, req.authorization = some header ∧
        verifyToken env (secondField header) = some decoded ∧
        protect env req = .next (decoded.get "id") none) ∧
    (carriesVerifiedToken env req = false → ∃ text, protect env req = .respond 401 text) ∧
    ((∃ userId alsoSent, protect env req = .next userId alsoSent) ↔
      carriesVerifiedToken env req = true) := by
  refine ⟨protect_of_verified env req, protect_of_not_verified env req, ?_⟩
  constructor
  · rintro ⟨userId, alsoSent, hnext⟩
    cases hc : carriesVerifiedToken env req with
    | true => rfl
    | false =>
      obtain ⟨text, hrespond⟩ := protect_of_not_verified env req hc
      rw [hrespond] at hnext
      exact ProtectResult.noConfusion hnext
  · intro hc
    obtain ⟨header, decoded, _, _, hnext⟩ := protect_of_verified env req hc
    exact ⟨_, _, hnext⟩

/-- C25, for a request whose token verifies with id 7, and for one whose
token does not verify. -/
theorem protect_next_iff_verified_witness :
    (carriesVerifiedToken tokenEnv tokenRequest = true ∧
      protect tokenEnv tokenRequest = .next (.number 7) none) ∧
    (carriesVerifiedToken tokenEnv staleTokenRequest = false ∧
      ∃ text, protect tokenEnv staleTokenRequest = .respond 401 text) :=
  ⟨⟨by decide, by
      obtain ⟨header, decoded, hauth, hdecoded, hnext⟩ :=
        (protect_next_iff_verified tokenEnv tokenRequest).1 (by decide)
      rw [hnext]
      have hheader : header = "Bearer token-7" := by
        have : some header = some "Bearer token-7" := hauth.symm.trans rfl
        exact (Option.some.inj this)
      subst hheader
      have hvalue : decoded = .object [("id", .number 7)] := by
        have : some decoded = some (JsValue.object [("id", .number 7)]) :=
          hdecoded.symm.trans (by rfl)
        exact Option.some.inj this
      subst hvalue
      rfl⟩,
   ⟨by decide, (protect_next_iff_verified tokenEnv staleTokenRequest).2.1 (by decide)⟩⟩

theorem checkAdmin_member (userId : JsValue) :
    ADMIN_USER_IDS.any (fun member => strictEq member userId) = true ↔
      userId = .number 1 ∨ userId = .number 2 := by
  constructor
  · intro h
    simp only [ADMIN_USER_IDS, List.any_cons, List.any_nil, Bool.or_false,
      Bool.or_eq_true] at h
    rcases h with h | h
    · exact Or.inl (strictEq_eq _ _ h).symm
    · exact Or.inr (strictEq_eq _ _ h).symm
  · rintro (h | h) <;> subst h <;> decide

/-- C26: `checkAdmin` calls `next` exactly when `req.userId` is the number 1
or the number 2, the members of `ADMIN_USER_IDS`; for every other value, a
missing one included, it sends a 403 response and does not call `next`. -/
theorem checkAdmin_next_iff_admin (userId : JsValue) :
    (checkAdmin userId = .next ↔ userId = .number 1 ∨ userId = .number 2) ∧
    (¬ (userId = .number 1 ∨ userId = .number 2) →
      ∃ text, checkAdmin userId = .respond 403 text) ∧
    checkAdmin .undefined = .respond 403 "Forbidden: Admin access required." := by
  have hcases : (userId = .number 1 ∨ userId = .number 2) → checkAdmin userId = .next := by
    rintro (h | h) <;> subst h <;> decide
  have hother : ¬ (userId = .number 1 ∨ userId = .number 2) →
      ∃ text, checkAdmin userId = .respond 403 text := by
    intro hnot
    have hmember : ADMIN_USER_IDS.any (fun member => strictEq member userId) = false := by
      cases hm : ADMIN_USER_IDS.any (fun member => strictEq member userId) with
      | false => rfl
      | true => exact absurd ((checkAdmin_member userId).mp hm) hnot
    unfold checkAdmin
    by_cases htruthy : userId.truthy = true
    · exact ⟨"Forbidden: You do not have administrator privileges.", by simp [htruthy, hmember]⟩
    · exact ⟨"Forbidden: Admin access required.", by simp [htruthy]⟩
  refine ⟨⟨?_, hcases⟩, hother, rfl⟩
  intro hnext
  by_contra hnot
  obtain ⟨text, hrespond⟩ := hother hnot
  rw [hrespond] at hnext
  exact AdminResult.noConfusion hnext

/-- C26, for the user ids 2 (an administrator), 3 and the string "1". -/
theorem checkAdmin_next_iff_admin_witness :
    checkAdmin (.number 2) = .next ∧
    (∃ text, checkAdmin (.number 3) = .respond 403 text) ∧
    (∃ text, checkAdmin (.string "1") = .respond 403 text) :=
  ⟨(checkAdmin_next_iff_admin (.number 2)).1.mpr (Or.inr rfl),
   (checkAdmin_next_iff_admin (.number 3)).2.1 (by simp),
   (checkAdmin_next_iff_admin (.string "1")).2.1 (by simp)⟩

/-! ## The savings page: the storage key -/

theorem get_user_authStateOf (token userId : JsValue) (isAuthenticated : Bool) :
    (authStateOf token userId isAuthenticated).get "user" = .undefined := by
  rfl

/-- C29, on the code: the object `authState` never has a key `user`, so
`authState.user?.id` is `undefined` and the key is `savings_plan_guest` for
every state the provider hands out: logged out, or logged in with whatever
token and user id. Two distinct logged-in users get the same key. -/
theorem savings_key_always_guest (token userId token' userId' : JsValue) :
    SAVINGS_KEY (loggedIn token userId) = "savings_plan_guest" ∧
    SAVINGS_KEY (loggedIn token' userId') = "savings_plan_guest" ∧
    SAVINGS_KEY loggedOut = "savings_plan_guest" ∧
    SAVINGS_KEY (loggedIn (.string "t7") (.number 7))
      = SAVINGS_KEY (loggedIn (.string "t9") (.number 9)) := by
  have hkey : ∀ (t u : JsValue) (b : Bool),
      SAVINGS_KEY (authStateOf t u b) = "savings_plan_guest" := by
    intro t u b
    unfold SAVINGS_KEY
    rw [get_user_authStateOf]
    rfl
  exact ⟨hkey _ _ _, hkey _ _ _, hkey _ _ _, by rw [loggedIn, loggedIn, hkey, hkey]⟩


/-! ## The login route -/

/-- C27, on the code: the body `{"email": "amina@example.org", "password":
12345}` has both fields present. When no user has the email the answer is 401
"Invalid credentials."; when the email is registered `bcrypt.compare` rejects
the number and the answer is 500 "Server error during login.". The two
responses differ, so the response tells whether the email is registered. -/
theorem login_reveals_registered_email :
    (numericPasswordBody.get "email").truthy = true ∧
    (numericPasswordBody.get "password").truthy = true ∧
    unregisteredEnv.findOne (numericPasswordBody.get "email") = .ok none ∧
    registeredEnv.findOne (numericPasswordBody.get "email") = .ok (some amina) ∧
    login unregisteredEnv numericPasswordBody = .message 401 "Invalid credentials." ∧
    login registeredEnv numericPasswordBody = .message 500 "Server error during login." ∧
    login unregisteredEnv numericPasswordBody ≠ login registeredEnv numericPasswordBody :=
  ⟨by decide, by decide, rfl, rfl, by decide, by decide, by decide⟩

/-- The same holds on every server: with the email present and a password
that is present but not a string, the answer is 401 when the query finds no
user and 500 when it finds one. -/
theorem login_non_string_password (env : AuthEnv) (reqBody : JsValue) (user : User)
    (hemail : (reqBody.get "email").truthy = true)
    (hpassword : (reqBody.get "password").truthy = true)
    (hkind : ∀ text, reqBody.get "password" ≠ .string text) :
    (env.findOne (reqBody.get "email") = .ok none →
      login env reqBody = .message 401 "Invalid credentials.") ∧
    (env.findOne (reqBody.get "email") = .ok (some user) →
      login env reqBody = .message 500 "Server error during login.") := by
  constructor
  · intro hnone
    simp [login, hemail, hpassword, hnone]
  · intro hsome
    have hcompare : ∃ text, user.comparePassword env (reqBody.get "password") = .error text := by
      unfold User.comparePassword
      cases hp : reqBody.get "password" with
      | string text => exact absurd hp (hkind text)
      | undefined => exact ⟨_, rfl⟩
      | null => exact ⟨_, rfl⟩
      | bool b => exact ⟨_, rfl⟩
      | number n => exact ⟨_, rfl⟩
      | array items => exact ⟨_, rfl⟩
      | object fields => exact ⟨_, rfl⟩
    obtain ⟨text, hcompare⟩ := hcompare
    simp [login, hemail, hpassword, hsome, hcompare]

/-- Where the two responses do agree: with the email and the password
present, the response when the query finds no user and the response when it
finds one and the comparison resolves to false (a string password that does
not match) are the same response, status 401 with the message "Invalid
credentials.". -/
theorem login_same_response_unknown_or_mismatch (unknownEnv knownEnv : AuthEnv)
    (reqBody : JsValue) (user : User)
    (hemail : (reqBody.get "email").truthy = true)
    (hpassword : (reqBody.get "password").truthy = true)
    (hunknown : unknownEnv.findOne (reqBody.get "email") = .ok none)
    (hknown : knownEnv.findOne (reqBody.get "email") = .ok (some user))
    (hmismatch : user.comparePassword knownEnv (reqBody.get "password") = .ok false) :
    login unknownEnv reqBody = .message 401 "Invalid credentials." ∧
    login knownEnv reqBody = .message 401 "Invalid credentials." ∧
    login unknownEnv reqBody = login knownEnv reqBody := by
  have hfirst : login unknownEnv reqBody = .message 401 "Invalid credentials." := by
    simp [login, hemail, hpassword, hunknown]
  have hsecond : login knownEnv reqBody = .message 401 "Invalid credentials." := by
    simp [login, hemail, hpassword, hknown, hmismatch]
  exact ⟨hfirst, hsecond, hfirst.trans hsecond.symm⟩

/-- The wrong password "guess" sent for a registered email gets the same
response from the server without users and from the one holding the email. -/
theorem login_same_response_unknown_or_mismatch_witness :
    login unregisteredEnv wrongPasswordBody = login registeredEnv wrongPasswordBody :=
  (login_same_response_unknown_or_mismatch unregisteredEnv registeredEnv wrongPasswordBody
      amina (by decide) (by decide) rfl rfl (by rfl)).2.2

/-! ## The clinic query -/

theorem buildWhereClause_absent (toUpperCase : String → String) (query : JsValue)
    (h : query.get "priceBand" = .undefined) :
    buildWhereClause toUpperCase query = .ok
      { county := if (query.get "county").truthy then some (query.get "county") else none,
        availableServices :=
          if (query.get "service").truthy then some (query.get "service") else none,
        priceBand := none } := by
  unfold buildWhereClause
  rw [h]
  rfl

theorem buildWhereClause_string (toUpperCase : String → String) (query : JsValue)
    (text : String) (h : query.get "priceBand" = .string text) :
    buildWhereClause toUpperCase query = .ok
      { county := if (query.get "county").truthy then some (query.get "county") else none,
        availableServices :=
          if (query.get "service").truthy then some (query.get "service") else none,
        priceBand :=
          if text ≠ "" ∧ PRICE_BANDS.contains (toUpperCase text) = true
          then some (toUpperCase text) else none } := by
  unfold buildWhereClause
  rw [h]
  by_cases hblank : text = ""
  · simp [truthy, hblank]
  · by_cases hin : PRICE_BANDS.contains (toUpperCase text) = true
    · have hmem : toUpperCase text ∈ PRICE_BANDS := by simpa using hin
      simp [truthy, hblank, hmem]
    · have hmem : toUpperCase text ∉ PRICE_BANDS := by simpa using hin
      simp [truthy, hblank, hmem]

/-- C30, on the code: for the query `?priceBand=low&priceBand=high` the
supplied `priceBand` is an array, which is truthy and has no `toUpperCase`;
the call of line 34 throws before the `try` block, so for every `toUpperCase`
no where-clause is built and the query is not run, rather than run unfiltered
by price as the check of lines 33-36 intends for a value that is not one of
the four bands. -/
theorem clinic_array_price_band_throws :
    (arrayPriceQuery.get "priceBand").truthy = true ∧
    buildWhereClause upperAscii arrayPriceQuery
      = .error "TypeError: priceBand.toUpperCase is not a function" ∧
    ∀ (toUpperCase : String → String) (whereClause : WhereClause),
      buildWhereClause toUpperCase arrayPriceQuery ≠ .ok whereClause := by
  refine ⟨by decide, rfl, ?_⟩
  intro toUpperCase whereClause h
  have herr : buildWhereClause toUpperCase arrayPriceQuery
      = .error "TypeError: priceBand.toUpperCase is not a function" := rfl
  rw [herr] at h
  exact Except.noConfusion h

/-- Where the price check does what it is written for: for every clinic
query whose `priceBand` is absent or a string, the where-clause is built
without failure; its price filter is set exactly when
the supplied `priceBand`, upper-cased, is one of FREE, LOW, MEDIUM, HIGH, and
is then that upper-cased string; the county and service filters are set
exactly when those parameters are truthy (non-empty), to the values given. -/
theorem clinic_filters (toUpperCase : String → String) (query : JsValue)
    (hempty : toUpperCase "" = "")
    (hband : query.get "priceBand" = .undefined ∨ ∃ text, query.get "priceBand" = .string text) :
    ∃ whereClause, buildWhereClause toUpperCase query = .ok whereClause ∧
      (∀ text, query.get "priceBand" = .string text →
        (PRICE_BANDS.contains (toUpperCase text) = true →
          whereClause.priceBand = some (toUpperCase text)) ∧
        (PRICE_BANDS.contains (toUpperCase text) = false → whereClause.priceBand = none)) ∧
      (query.get "priceBand" = .undefined → whereClause.priceBand = none) ∧
      whereClause.county
        = (if (query.get "county").truthy then some (query.get "county") else none) ∧
      whereClause.availableServices
        = (if (query.get "service").truthy then some (query.get "service") else none) := by
  rcases hband with hnone | ⟨text, htext⟩
  · refine ⟨_, buildWhereClause_absent toUpperCase query hnone, ?_, fun _ => rfl, rfl, rfl⟩
    intro text htext
    rw [hnone] at htext
    exact JsValue.noConfusion htext
  · refine ⟨_, buildWhereClause_string toUpperCase query text htext, ?_, ?_, rfl, rfl⟩
    · intro text' htext'
      have heq : text' = text := by
        rw [htext] at htext'
        exact (JsValue.string.inj htext').symm
      subst heq
      constructor
      · intro hin
        have hblank : text' ≠ "" := by
          intro hb
          rw [hb, hempty] at hin
          exact absurd hin (by decide)
        have hmem : toUpperCase text' ∈ PRICE_BANDS := by simpa using hin
        simp [hblank, hmem]
      · intro hout
        have hmem : toUpperCase text' ∉ PRICE_BANDS := by simpa using hout
        simp [hmem]
    · intro hundefined
      rw [htext] at hundefined
      exact JsValue.noConfusion hundefined

/-- The query `county=Nairobi&priceBand=low`: the price filter is
LOW, the county filter Nairobi, and there is no service filter. -/
theorem clinic_filters_witness :
    upperAscii "" = "" ∧ lowPriceQuery.get "priceBand" = .string "low" ∧
    ∃ whereClause, buildWhereClause upperAscii lowPriceQuery = .ok whereClause ∧
      (∀ text, lowPriceQuery.get "priceBand" = .string text →
        (PRICE_BANDS.contains (upperAscii text) = true →
          whereClause.priceBand = some (upperAscii text)) ∧
        (PRICE_BANDS.contains (upperAscii text) = false → whereClause.priceBand = none)) ∧
      (lowPriceQuery.get "priceBand" = .undefined → whereClause.priceBand = none) ∧
      whereClause.county
        = (if (lowPriceQuery.get "county").truthy then some (lowPriceQuery.get "county")
            else none) ∧
      whereClause.availableServices
        = (if (lowPriceQuery.get "service").truthy then some (lowPriceQuery.get "service")
            else none) :=
  ⟨by decide, rfl, clinic_filters upperAscii lowPriceQuery (by decide) (Or.inr ⟨"low", rfl⟩)⟩

/-! ## The quiz page: reachable states -/

/-- C22, on the code: after a Male respondent has answered the first five
questions the quiz is at step 5 and presents `QUESTIONS[5]`, the question
`q_bleeding` that applies to Female only and is not in the resolved list; the
answer the respondent gives to it is stored. -/
theorem male_respondent_shown_female_question :
    (quizAfter maleFlow).step = 5 ∧
    (quizAfter maleFlow).answers.get "q_sex" = .string "Male" ∧
    (currentQuestion (quizAfter maleFlow)).map (fun q => (q.id, q.appliesTo))
      = some ("q_bleeding", some "Female") ∧
    (∀ q, currentQuestion (quizAfter maleFlow) = some q →
      q ∉ filteredQuestions (quizAfter maleFlow).answers) ∧
    "q_bleeding" ∉ questionIds (filteredQuestions (quizAfter maleFlow).answers) ∧
    (quizAfter (maleFlow ++ [.answer "Yes"])).answers.get "q_bleeding" = .string "Yes" := by
  refine ⟨by decide, by rfl, by decide, ?_, by decide, by rfl⟩
  intro q hq hmem
  have hid : "q_bleeding" ∈ questionIds (filteredQuestions (quizAfter maleFlow).answers) := by
    have hcur : currentQuestion (quizAfter maleFlow) = QUESTIONS[5]? := rfl
    rw [hcur] at hq
    have hq' : q.id = "q_bleeding" := by
      have : QUESTIONS[5]? = some (QUESTIONS.get ⟨5, by decide⟩) := rfl
      rw [this] at hq
      rw [← Option.some.inj hq]
      rfl
    rw [← hq']
    exact List.mem_map_of_mem _ hmem
  exact absurd hid (by decide)

theorem advance_female_table :
    ∀ k, k < 7 → (QUESTIONS[k]?.map fun q =>
      decide (findIndex (fun x => x.id == q.id)
          (filteredQuestions (.object [("q_sex", .string "Female")]))
        < ((filteredQuestions (.object [("q_sex", .string "Female")])).length : Int) - 1))
      = some (decide (k ≤ 4 ∨ k = 6)) := by
  decide

theorem advance_male_table :
    ∀ k, k < 7 → (QUESTIONS[k]?.map fun q =>
      decide (findIndex (fun x => x.id == q.id)
          (filteredQuestions (.object [("q_sex", .string "Male")]))
        < ((filteredQuestions (.object [("q_sex", .string "Male")])).length : Int) - 1))
      = some (decide (k ≤ 5)) := by
  decide

theorem advance_neither_table :
    ∀ k, k < 7 → (QUESTIONS[k]?.map fun q =>
      decide (findIndex (fun x => x.id == q.id) (filteredQuestions (.object []))
        < ((filteredQuestions (.object [])).length : Int) - 1))
      = some (decide (k ≤ 3 ∨ k = 5 ∨ k = 6)) := by
  decide

theorem appliesTo_options :
    ∀ q ∈ QUESTIONS, q.appliesTo = none ∨ q.appliesTo = some "Female" ∨ q.appliesTo = some "Male" := by
  decide

theorem filteredQuestions_neither (answers : JsValue)
    (hfemale : answers.get "q_sex" ≠ .string "Female")
    (hmale : answers.get "q_sex" ≠ .string "Male") :
    filteredQuestions answers = filteredQuestions (.object []) := by
  unfold filteredQuestions
  apply List.filter_congr
  intro q hq
  have hempty : ∀ s : String, (JsValue.object []).get "q_sex" ≠ .string s := by
    intro s h
    exact JsValue.noConfusion h
  rcases appliesTo_options q hq with h | h | h
  · rw [appliesToAnswers_none answers q h, appliesToAnswers_none _ q h]
  · have h1 : appliesToAnswers answers q = false :=
      Bool.eq_false_iff.mpr
        (fun ht => hfemale ((appliesToAnswers_some answers q _ h (by decide)).mp ht))
    have h2 : appliesToAnswers (.object []) q = false :=
      Bool.eq_false_iff.mpr
        (fun ht => hempty _ ((appliesToAnswers_some _ q _ h (by decide)).mp ht))
    rw [h1, h2]
  · have h1 : appliesToAnswers answers q = false :=
      Bool.eq_false_iff.mpr
        (fun ht => hmale ((appliesToAnswers_some answers q _ h (by decide)).mp ht))
    have h2 : appliesToAnswers (.object []) q = false :=
      Bool.eq_false_iff.mpr
        (fun ht => hempty _ ((appliesToAnswers_some _ q _ h (by decide)).mp ht))
    rw [h1, h2]

theorem question_index_lt (k : Nat) (q : Question) (hq : QUESTIONS[k]? = some q) : k < 7 := by
  have h := (List.getElem?_eq_some_iff.mp hq).1
  simpa [QUESTIONS] using h

theorem question_ids_by_index :
    ∀ j, j < 7 → ∀ k, k < 7 →
      QUESTIONS[j]?.map (fun q => q.id) = QUESTIONS[k]?.map (fun q => q.id) → j = k := by
  decide

theorem required_questions_first :
    ∀ k, k < 7 → QUESTIONS[k]?.map (fun q => q.required) = some (decide (k ≤ 4)) := by
  decide

/-- Whether a click on next at catalog index `k` moves on, by the answer to
`q_sex`. -/
theorem advance_by_sex (answers : JsValue) (k : Nat) (q : Question)
    (hq : QUESTIONS[k]? = some q) :
    (answers.get "q_sex" = .string "Female" →
      (findIndex (fun x => x.id == q.id) (filteredQuestions answers)
        < ((filteredQuestions answers).length : Int) - 1 ↔ k ≤ 4 ∨ k = 6)) ∧
    (answers.get "q_sex" = .string "Male" →
      (findIndex (fun x => x.id == q.id) (filteredQuestions answers)
        < ((filteredQuestions answers).length : Int) - 1 ↔ k ≤ 5)) ∧
    (answers.get "q_sex" ≠ .string "Female" → answers.get "q_sex" ≠ .string "Male" →
      (findIndex (fun x => x.id == q.id) (filteredQuestions answers)
        < ((filteredQuestions answers).length : Int) - 1 ↔ k ≤ 3 ∨ k = 5 ∨ k = 6)) := by
  have hk := question_index_lt k q hq
  refine ⟨fun h => ?_, fun h => ?_, fun hf hm => ?_⟩
  · rw [filteredQuestions_congr answers (.object [("q_sex", .string "Female")]) (by rw [h]; rfl)]
    have ht := advance_female_table k hk
    rw [hq] at ht
    exact decide_eq_decide.mp (Option.some.inj ht)
  · rw [filteredQuestions_congr answers (.object [("q_sex", .string "Male")]) (by rw [h]; rfl)]
    have ht := advance_male_table k hk
    rw [hq] at ht
    exact decide_eq_decide.mp (Option.some.inj ht)
  · rw [filteredQuestions_neither answers hf hm]
    have ht := advance_neither_table k hk
    rw [hq] at ht
    exact decide_eq_decide.mp (Option.some.inj ht)

/-- The three outcomes of a click on next while a catalog question is
presented. -/
theorem handleNext_cases (s : QuizState) (q : Question) (hq : QUESTIONS[s.step]? = some q) :
    (q.required = true ∧ (s.answers.get q.id).truthy = false ∧
      handleNext s = .rejected
        { s with validationError := "Please answer question " ++ toString (s.step + 1) ++ "." }) ∨
    ((q.required = true → (s.answers.get q.id).truthy = true) ∧
      findIndex (fun x => x.id == q.id) (filteredQuestions s.answers)
        < ((filteredQuestions s.answers).length : Int) - 1 ∧
      handleNext s = .advanced { s with step := s.step + 1 }) ∨
    ((q.required = true → (s.answers.get q.id).truthy = true) ∧
      ¬ findIndex (fun x => x.id == q.id) (filteredQuestions s.answers)
        < ((filteredQuestions s.answers).length : Int) - 1 ∧
      handleNext s = .submitted s) := by
  unfold handleNext currentQuestion
  rw [hq]
  by_cases hreq : q.required = true
  · by_cases hans : (s.answers.get q.id).truthy = true
    · by_cases hidx : findIndex (fun x => x.id == q.id) (filteredQuestions s.answers)
          < ((filteredQuestions s.answers).length : Int) - 1
      · right; left
        exact ⟨fun _ => hans, hidx, by simp [hreq, hans, hidx]⟩
      · right; right
        exact ⟨fun _ => hans, hidx, by simp [hreq, hans, hidx]⟩
    · left
      have hans' : (s.answers.get q.id).truthy = false := by simpa using hans
      exact ⟨hreq, hans', by simp [hreq, hans']⟩
  · by_cases hidx : findIndex (fun x => x.id == q.id) (filteredQuestions s.answers)
        < ((filteredQuestions s.answers).length : Int) - 1
    · right; left
      exact ⟨fun h => absurd h hreq, hidx, by simp [hreq, hidx]⟩
    · right; right
      exact ⟨fun h => absurd h hreq, hidx, by simp [hreq, hidx]⟩

theorem question_at_step (k : Nat) (hk : k ≤ 6) : ∃ q, QUESTIONS[k]? = some q := by
  have hlt : k < QUESTIONS.length := by
    have : QUESTIONS.length = 7 := rfl
    omega
  exact ⟨QUESTIONS[k], List.getElem?_eq_getElem hlt⟩

theorem female_ne_male : (JsValue.string "Female") ≠ .string "Male" := by
  intro h
  exact absurd (JsValue.string.inj h) (by decide)

theorem invariant_initial : QuizInvariant QuizState.initial := by
  refine ⟨by decide, ?_, ?_, ?_, ?_⟩
  · intro h
    exact absurd h (by decide)
  · intro h
    exact absurd h (by decide)
  · intro j q hj
    exact absurd hj (Nat.not_lt_zero j)
  · intro key
    exact Or.inl rfl

theorem invariant_answer (s : QuizState) (value : String) (h : QuizInvariant s) :
    QuizInvariant (s.after (.answer value)) := by
  obtain ⟨hstep, hsex, hmale, hrequired, hstrings⟩ := h
  obtain ⟨current, hcurrent⟩ := question_at_step s.step hstep
  have hafter : s.after (.answer value) = handleAnswerChange s current.id (.string value) := by
    simp [QuizState.after, currentQuestion, hcurrent]
  rw [hafter]
  have hk := question_index_lt s.step current hcurrent
  have hother : ∀ j q, j < 7 → j ≠ s.step → QUESTIONS[j]? = some q →
      ((s.answers.set current.id (.string value)).get q.id) = s.answers.get q.id := by
    intro j q hj hne hq
    rw [get_set]
    have hid : current.id ≠ q.id := by
      intro heq
      apply hne
      apply question_ids_by_index j hj s.step hk
      rw [hq, hcurrent]
      simp [heq]
    simp [hid]
  have hsexkept : 5 ≤ s.step →
      (s.answers.set current.id (.string value)).get "q_sex" = s.answers.get "q_sex" := by
    intro h5
    exact hother 1 (QUESTIONS.get ⟨1, by decide⟩) (by decide) (by omega) rfl
  have hanswers : (handleAnswerChange s current.id (.string value)).answers
      = s.answers.set current.id (.string value) := rfl
  refine ⟨hstep, ?_, ?_, ?_, ?_⟩
  · intro h5
    rw [hanswers, hsexkept h5]
    exact hsex h5
  · intro h6
    have h6' : s.step = 6 := h6
    rw [hanswers, hsexkept (by omega)]
    exact hmale h6'
  · intro j q hj hq hreq
    have hj' : j < s.step := hj
    rw [hanswers, hother j q (by omega) (by omega) hq]
    exact hrequired j q hj' hq hreq
  · intro key
    rw [hanswers, get_set]
    by_cases hkey : current.id = key
    · simp [hkey]
    · simp only [hkey, if_false]
      exact hstrings key

theorem invariant_prev (s : QuizState) (h : QuizInvariant s) :
    QuizInvariant (s.after .prev) := by
  obtain ⟨hstep, hsex, hmale, hrequired, hstrings⟩ := h
  show QuizInvariant (handlePrev s)
  unfold handlePrev
  by_cases hpos : s.step > 0
  · simp only [hpos, if_true]
    refine ⟨?_, ?_, ?_, ?_, hstrings⟩
    · show s.step - 1 ≤ 6
      omega
    · intro h5
      have h5' : 5 ≤ s.step - 1 := h5
      exact hsex (by omega)
    · intro h6
      have h6' : s.step - 1 = 6 := h6
      omega
    · intro j q hj hq hreq
      have hj' : j < s.step - 1 := hj
      exact hrequired j q (by omega) hq hreq
  · simp only [hpos, if_false]
    exact ⟨hstep, hsex, hmale, hrequired, hstrings⟩

theorem invariant_advance (s : QuizState) (q : Question) (h : QuizInvariant s)
    (hq : QUESTIONS[s.step]? = some q)
    (hanswered : q.required = true → (s.answers.get q.id).truthy = true)
    (hidx : findIndex (fun x => x.id == q.id) (filteredQuestions s.answers)
      < ((filteredQuestions s.answers).length : Int) - 1) :
    QuizInvariant { s with step := s.step + 1 } := by
  obtain ⟨hstep, hsex, hmale, hrequired, hstrings⟩ := h
  obtain ⟨hfemaleAdv, hmaleAdv, hneitherAdv⟩ := advance_by_sex s.answers s.step q hq
  have hfacts : s.step + 1 ≤ 6 ∧
      (4 ≤ s.step → s.answers.get "q_sex" = .string "Female" ∨
        s.answers.get "q_sex" = .string "Male") ∧
      (s.step = 5 → s.answers.get "q_sex" = .string "Male") := by
    by_cases hf : s.answers.get "q_sex" = .string "Female"
    · have hk := (hfemaleAdv hf).mp hidx
      have hnot6 : s.step ≠ 6 := by
        intro h6
        have hm := hmale h6
        rw [hf] at hm
        exact female_ne_male hm
      refine ⟨by omega, fun _ => Or.inl hf, fun h5 => by omega⟩
    · by_cases hm : s.answers.get "q_sex" = .string "Male"
      · have hk := (hmaleAdv hm).mp hidx
        exact ⟨by omega, fun _ => Or.inr hm, fun _ => hm⟩
      · have hk := (hneitherAdv hf hm).mp hidx
        have hlow : s.step < 5 := by
          by_contra hge
          rcases hsex (by omega) with h1 | h1
          · exact hf h1
          · exact hm h1
        refine ⟨by omega, fun h4 => by omega, fun h5 => by omega⟩
  obtain ⟨hnext, hfour, hfive⟩ := hfacts
  refine ⟨hnext, ?_, ?_, ?_, hstrings⟩
  · intro h5
    have h5' : 5 ≤ s.step + 1 := h5
    exact hfour (by omega)
  · intro h6
    have h6' : s.step + 1 = 6 := h6
    exact hfive (by omega)
  · intro j q' hj hq' hreq
    have hj' : j < s.step + 1 := hj
    show (s.answers.get q'.id).truthy = true
    by_cases hlt : j < s.step
    · exact hrequired j q' hlt hq' hreq
    · have hje : j = s.step := by omega
      rw [hje, hq] at hq'
      have hqq : q = q' := Option.some.inj hq'
      rw [← hqq] at hreq ⊢
      exact hanswered hreq

theorem invariant_next (s : QuizState) (h : QuizInvariant s) :
    QuizInvariant (s.after .next) := by
  obtain ⟨q, hq⟩ := question_at_step s.step h.1
  rcases handleNext_cases s q hq with ⟨_, _, hres⟩ | ⟨hanswered, hidx, hres⟩ | ⟨_, _, hres⟩
  · simp only [QuizState.after, hres]
    exact h
  · simp only [QuizState.after, hres]
    exact invariant_advance s q h hq hanswered hidx
  · simp only [QuizState.after, hres]
    exact h

theorem invariant_after (s : QuizState) (event : QuizEvent) (h : QuizInvariant s) :
    QuizInvariant (s.after event) := by
  cases event with
  | answer value => exact invariant_answer s value h
  | next => exact invariant_next s h
  | prev => exact invariant_prev s h

theorem invariant_foldl (events : List QuizEvent) (s : QuizState) (h : QuizInvariant s) :
    QuizInvariant (events.foldl QuizState.after s) := by
  induction events generalizing s with
  | nil => exact h
  | cons event rest ih => exact ih (s.after event) (invariant_after s event h)

theorem invariant_quizAfter (events : List QuizEvent) : QuizInvariant (quizAfter events) :=
  invariant_foldl events QuizState.initial invariant_initial

/-- C24: in every quiz state reached from the initial state by answering the
presented question, `handleNext` and `handlePrev`, the step is at most 6, the
current question `QUESTIONS[step]` is defined, and a click on next does not
throw on an undefined question. -/
theorem quiz_step_within_catalog (events : List QuizEvent) :
    (quizAfter events).step ≤ 6 ∧
    (∃ q, currentQuestion (quizAfter events) = some q ∧ q ∈ QUESTIONS) ∧
    handleNext (quizAfter events) ≠ .typeError := by
  have hinv := invariant_quizAfter events
  obtain ⟨q, hq⟩ := question_at_step (quizAfter events).step hinv.1
  refine ⟨hinv.1, ⟨q, hq, List.getElem?_mem hq⟩, ?_⟩
  rcases handleNext_cases (quizAfter events) q hq with ⟨_, _, hres⟩ | ⟨_, _, hres⟩ | ⟨_, _, hres⟩
  · rw [hres]
    exact fun h => NextResult.noConfusion h
  · rw [hres]
    exact fun h => NextResult.noConfusion h
  · rw [hres]
    exact fun h => NextResult.noConfusion h

/-- C23: in every quiz state reached from the initial state by answering the
presented question, `handleNext` and `handlePrev`, when a click on next calls
`submitRiskCheck` the answer set it sends is the current one, and in it every
catalog question marked required has a non-empty string answer. -/
theorem submit_has_required_answers (events : List QuizEvent)
    (hsubmit : (handleNext (quizAfter events)).submits = true) :
    handleNext (quizAfter events) = .submitted (quizAfter events) ∧
    ∀ q ∈ QUESTIONS, q.required = true →
      ∃ value, (quizAfter events).answers.get q.id = .string value ∧ value ≠ "" := by
  have hinv := invariant_quizAfter events
  obtain ⟨hstep, hsex, hmale, hrequired, hstrings⟩ := hinv
  obtain ⟨current, hcurrent⟩ := question_at_step (quizAfter events).step hstep
  rcases handleNext_cases (quizAfter events) current hcurrent with
    ⟨_, _, hres⟩ | ⟨_, _, hres⟩ | ⟨hanswered, hidx, hres⟩
  · rw [hres] at hsubmit
    exact absurd hsubmit (by simp [NextResult.submits])
  · rw [hres] at hsubmit
    exact absurd hsubmit (by simp [NextResult.submits])
  · refine ⟨hres, ?_⟩
    obtain ⟨hfemaleAdv, hmaleAdv, hneitherAdv⟩ :=
      advance_by_sex (quizAfter events).answers (quizAfter events).step current hcurrent
    have hfour : 4 ≤ (quizAfter events).step := by
      by_cases hf : (quizAfter events).answers.get "q_sex" = .string "Female"
      · have hk : ¬ ((quizAfter events).step ≤ 4 ∨ (quizAfter events).step = 6) :=
          fun h => hidx ((hfemaleAdv hf).mpr h)
        clear hidx
        omega
      · by_cases hm : (quizAfter events).answers.get "q_sex" = .string "Male"
        · have hk : ¬ ((quizAfter events).step ≤ 5) := fun h => hidx ((hmaleAdv hm).mpr h)
          clear hidx
          omega
        · have hk : ¬ ((quizAfter events).step ≤ 3 ∨ (quizAfter events).step = 5 ∨
              (quizAfter events).step = 6) := fun h => hidx ((hneitherAdv hf hm).mpr h)
          clear hidx
          omega
    intro q hmem hreq
    obtain ⟨j, hj⟩ := List.getElem?_of_mem hmem
    have hjlt := question_index_lt j q hj
    have hjreq := required_questions_first j hjlt
    rw [hj] at hjreq
    have hj4 : j ≤ 4 := by
      have hdec : q.required = decide (j ≤ 4) := Option.some.inj hjreq
      rw [hreq] at hdec
      exact of_decide_eq_true hdec.symm
    have htruthy : ((quizAfter events).answers.get q.id).truthy = true := by
      by_cases hlt : j < (quizAfter events).step
      · exact hrequired j q hlt hj hreq
      · have hje : j = (quizAfter events).step := by omega
        rw [hje, hcurrent] at hj
        have hqq : current = q := Option.some.inj hj
        rw [← hqq] at hreq ⊢
        exact hanswered hreq
    rcases hstrings q.id with hundef | ⟨value, hvalue⟩
    · rw [hundef] at htruthy
      exact absurd htruthy (by simp [truthy])
    · refine ⟨value, hvalue, ?_⟩
      rw [hvalue] at htruthy
      simpa [truthy] using htruthy

/-- C23, for a Male respondent who answered every question up to step 6: the
click on next submits, and the five required questions are answered. -/
theorem submit_has_required_answers_witness :
    (handleNext (quizAfter (maleFlow ++ [.next]))).submits = true ∧
    handleNext (quizAfter (maleFlow ++ [.next])) = .submitted (quizAfter (maleFlow ++ [.next])) ∧
    ∀ q ∈ QUESTIONS, q.required = true →
      ∃ value, (quizAfter (maleFlow ++ [.next])).answers.get q.id = .string value ∧ value ≠ "" :=
  ⟨by decide, submit_has_required_answers (maleFlow ++ [.next]) (by decide)⟩

/-! ## The savings page: payments -/

/-- C28, on the code: the calculation for a target of 2000 over 2 months
passes validation with a monthly amount of 1000, and 1000 × 2 reaches the
target. When the payment button is clicked twice before the first prompt
appears, both timer callbacks add to the total of the plan they closed over
(0): after the two confirmed payments the plan has 1000 saved and is not
marked achieved. Paid one after the other, the same two payments reach the
goal. -/
theorem overlapping_payments_lose_update :
    (handleCalculate .flexible_plan (some twoThousand) (some 2) none).map
        (fun result => (result.months, result.requiredMonthly,
          result.target.leNat 2000, result.target.ltNat 2000,
          result.target.leNat (result.requiredMonthly * result.months)))
      = some (2, 1000, true, false, true) ∧
    confirmedPayments overlappingPayments = 2 ∧
    (handleCalculate .flexible_plan (some twoThousand) (some 2) none).map
        (fun result =>
          ((handleStartSaving result).afterAll overlappingPayments).planDetails.map
            (fun plan => (plan.totalSaved, plan.isGoalAchieved)))
      = some (some (1000, false)) ∧
    confirmedPayments separatePayments = 2 ∧
    (handleCalculate .flexible_plan (some twoThousand) (some 2) none).map
        (fun result =>
          ((handleStartSaving result).afterAll separatePayments).planDetails.map
            (fun plan => (plan.totalSaved, plan.isGoalAchieved)))
      = some (some (2000, true)) :=
  ⟨by decide, by decide, by decide, by decide, by decide⟩

/-- Apart from overlapping payments, rounding alone can keep a plan open: the
target 13470598200314302 (a double above 2^53) over 17 months passes
validation, the monthly amount is 792388129430253, seventeen times that is
below the target, and after seventeen payments made one after the other the
plan is not marked achieved. -/
theorem savings_large_target_not_achieved :
    (handleCalculate .flexible_plan (some largeTarget) (some 17) none).map
        (fun result => (result.target, result.months, result.requiredMonthly))
      = some ({ significand := 13470598200314302, scale := 0 }, 17, 792388129430253) ∧
    792388129430253 * 17 < 13470598200314302 ∧
    confirmedPayments (paidInTurn "2025-01-01" 17) = 17 ∧
    (handleCalculate .flexible_plan (some largeTarget) (some 17) none).map
        (fun result =>
          ((handleStartSaving result).afterAll (paidInTurn "2025-01-01" 17)).planDetails.map
            (fun plan => (plan.totalSaved, plan.isGoalAchieved)))
      = some (some (13470598200314296, false)) :=
  ⟨by decide, by decide, by decide, by decide⟩

/-! ## The savings page: rounding -/

theorem halvings_le (fuel : Nat) : ∀ n, 1 ≤ n → 2 ^ halvings fuel n ≤ n := by
  induction fuel with
  | zero =>
    intro n h1
    simpa [halvings] using h1
  | succ fuel ih =>
    intro n h1
    unfold halvings
    by_cases hsmall : n < 2
    · simp only [hsmall, if_true]
      simpa using h1
    · simp only [hsmall, if_false]
      have hlo := ih (n / 2) (by omega)
      rw [pow_succ]
      omega

theorem halvings_lt (fuel : Nat) :
    ∀ n, halvings fuel n < fuel → n < 2 ^ (halvings fuel n + 1) := by
  induction fuel with
  | zero =>
    intro n h
    exact absurd h (Nat.not_lt_zero _)
  | succ fuel ih =>
    intro n h
    unfold halvings at h ⊢
    by_cases hsmall : n < 2
    · simp only [hsmall, if_true]
      simpa using hsmall
    · simp only [hsmall, if_false] at h ⊢
      have hhi := ih (n / 2) (by omega)
      rw [pow_succ] at hhi ⊢
      omega

theorem roundHalfEven_ge (num den : Nat) : num / den ≤ roundHalfEven num den := by
  unfold roundHalfEven
  split
  · exact Nat.le_refl _
  · split
    · exact Nat.le_succ _
    · split
      · exact Nat.le_refl _
      · exact Nat.le_succ _

theorem roundHalfEven_le (num den : Nat) : roundHalfEven num den ≤ num / den + 1 := by
  unfold roundHalfEven
  split
  · exact Nat.le_succ _
  · split
    · exact Nat.le_refl _
    · split
      · exact Nat.le_succ _
      · exact Nat.le_refl _

theorem roundHalfEven_exact (num den : Nat) (hden : 0 < den) (h : num % den = 0) :
    roundHalfEven num den = num / den := by
  unfold roundHalfEven
  simp [h, hden]

theorem roundHalfEven_up (num den : Nat) (h : den < 2 * (num % den)) :
    roundHalfEven num den = num / den + 1 := by
  unfold roundHalfEven
  have hnot : ¬ 2 * (num % den) < den := by omega
  simp [hnot, h]

/-- Rounding the scaled quotient and taking it up to a whole number gives the
exact ceiling, when the scale `P` exceeds half the divisor (or the division
is exact). -/
theorem ceil_of_rounded_quotient (q r m P : Nat) (hm : 0 < m) (hP : 0 < P) (hr : r < m)
    (hmP : r ≠ 0 → m < 2 * P) :
    (roundHalfEven ((q * m + r) * P) m + P - 1) / P = if r = 0 then q else q + 1 := by
  have hnum : (q * m + r) * P = m * (q * P) + r * P := by ring
  have hdiv : (q * m + r) * P / m = q * P + r * P / m := by
    rw [hnum, Nat.mul_add_div hm]
  have hmod : (q * m + r) * P % m = r * P % m := by
    rw [hnum, Nat.mul_add_mod]
  by_cases hr0 : r = 0
  · subst hr0
    have hexact : roundHalfEven ((q * m + 0) * P) m = q * P := by
      rw [roundHalfEven_exact _ m hm (by rw [hmod]; simp), hdiv]
      simp
    rw [hexact]
    simp only [if_true]
    apply Nat.div_eq_of_lt_le
    · omega
    · rw [Nat.succ_mul]
      omega
  · simp only [hr0, if_false]
    have hrpos : 1 ≤ r := Nat.one_le_iff_ne_zero.mpr hr0
    have hmP' : m < 2 * P := hmP hr0
    have hsplit := Nat.div_add_mod (r * P) m
    have hslt : r * P / m < P := by
      apply Nat.div_lt_of_lt_mul
      exact Nat.mul_lt_mul_of_pos_right hr hP
    have hge := roundHalfEven_ge ((q * m + r) * P) m
    have hle := roundHalfEven_le ((q * m + r) * P) m
    rw [hdiv] at hge hle
    have hlow : q * P + 1 ≤ roundHalfEven ((q * m + r) * P) m := by
      by_cases hs : 1 ≤ r * P / m
      · exact Nat.le_trans (Nat.add_le_add_left hs _) hge
      · have hs0 : r * P / m = 0 := Nat.lt_one_iff.mp (Nat.not_le.mp hs)
        have hsmall : r * P % m = r * P := by
          rw [hs0] at hsplit
          simpa using hsplit
        have hPle : P ≤ r * P := Nat.le_mul_of_pos_left P hrpos
        have hup := roundHalfEven_up ((q * m + r) * P) m (by rw [hmod, hsmall]; omega)
        rw [hup, hdiv]
        omega
    apply Nat.div_eq_of_lt_le
    · rw [Nat.succ_mul]
      omega
    · rw [Nat.succ_mul, Nat.succ_mul]
      omega

theorem roundWhole_small (n : Nat) (h : n < 2 ^ 53) : roundWhole n = n := by
  unfold roundWhole
  simp only [h, if_true]

theorem roundWhole_large (n : Nat) (h1 : 2 ^ 53 ≤ n) (h2 : n < 2 ^ 54) :
    2 ^ 53 ≤ roundWhole n := by
  have hn1 : 1 ≤ n := Nat.le_trans (Nat.pos_pow_of_pos _ (by decide)) h1
  have hlo : 2 ^ binaryExponent n ≤ n := halvings_le 1024 n hn1
  have hsmall : binaryExponent n < 54 :=
    (Nat.pow_lt_pow_iff_right (by decide : 1 < 2)).mp (Nat.lt_of_le_of_lt hlo h2)
  have hhi : n < 2 ^ (binaryExponent n + 1) :=
    halvings_lt 1024 n (Nat.lt_trans hsmall (by decide))
  have he : 53 ≤ binaryExponent n := by
    have := (Nat.pow_lt_pow_iff_right (by decide : 1 < 2)).mp (Nat.lt_of_le_of_lt h1 hhi)
    omega
  have hpow : 2 ^ binaryExponent n = 2 ^ 52 * 2 ^ (binaryExponent n - 52) := by
    rw [← pow_add]
    congr 1
    omega
  have hpos : 0 < 2 ^ (binaryExponent n - 52) := Nat.pos_pow_of_pos _ (by decide)
  have hdiv : 2 ^ 52 ≤ n / 2 ^ (binaryExponent n - 52) := by
    rw [Nat.le_div_iff_mul_le hpos, ← hpow]
    exact hlo
  have hnot : ¬ n < 2 ^ 53 := Nat.not_lt.mpr h1
  unfold roundWhole
  simp only [hnot, if_false]
  calc 2 ^ 53 ≤ 2 ^ binaryExponent n := Nat.pow_le_pow_right (by decide) he
    _ = 2 ^ 52 * 2 ^ (binaryExponent n - 52) := hpow
    _ ≤ roundHalfEven n (2 ^ (binaryExponent n - 52)) * 2 ^ (binaryExponent n - 52) :=
        Nat.mul_le_mul_right _ (Nat.le_trans hdiv (roundHalfEven_ge _ _))

theorem roundToDouble_significand_le (num den : Nat) (hden : 0 < den)
    (hbelow : (roundToDouble num den).ltNat (2 ^ 53) = true) :
    (roundToDouble num den).significand ≤ 2 ^ 53 := by
  unfold roundToDouble at hbelow ⊢
  by_cases he : binaryExponent (num / den) ≤ 52
  · simp only [he, if_true]
    have hhi : num / den < 2 ^ (binaryExponent (num / den) + 1) :=
      halvings_lt 1024 _ (Nat.lt_of_le_of_lt he (by decide))
    have hnum : num < 2 ^ (binaryExponent (num / den) + 1) * den :=
      (Nat.div_lt_iff_lt_mul hden).mp hhi
    have hpow : 2 ^ (binaryExponent (num / den) + 1) * 2 ^ (52 - binaryExponent (num / den))
        = 2 ^ 53 := by
      rw [← pow_add]
      congr 1
      omega
    have hscaled : num * 2 ^ (52 - binaryExponent (num / den)) < 2 ^ 53 * den := by
      have h1 := Nat.mul_lt_mul_of_pos_right hnum
        (Nat.pos_pow_of_pos (52 - binaryExponent (num / den)) (by decide : 0 < 2))
      calc num * 2 ^ (52 - binaryExponent (num / den))
          < 2 ^ (binaryExponent (num / den) + 1) * den
              * 2 ^ (52 - binaryExponent (num / den)) := h1
        _ = 2 ^ (binaryExponent (num / den) + 1) * 2 ^ (52 - binaryExponent (num / den))
              * den := by ring
        _ = 2 ^ 53 * den := by rw [hpow]
    have hfloor : num * 2 ^ (52 - binaryExponent (num / den)) / den < 2 ^ 53 :=
      (Nat.div_lt_iff_lt_mul hden).mpr hscaled
    exact Nat.le_trans (roundHalfEven_le _ _) hfloor
  · simp only [he, if_false, Double.ltNat, pow_zero, Nat.mul_one, decide_eq_true_eq] at hbelow ⊢
    exact Nat.le_of_lt hbelow

/-- For a double below 2^53 the whole number `Math.ceil(x / months)` is the
exact ceiling of the quotient: rounding the quotient does not lose a
non-zero remainder. -/
theorem divNat_ceil (x : Double) (months : Nat) (hmonths : 0 < months)
    (hsig : x.significand ≤ 2 ^ 53) (hbelow : x.significand < 2 ^ 53 * 2 ^ x.scale)
    (hge : 2 ^ x.scale * months ≤ x.significand) :
    (x.divNat months).ceil
      = if x.significand % (2 ^ x.scale * months) = 0
        then x.significand / (2 ^ x.scale * months)
        else x.significand / (2 ^ x.scale * months) + 1 := by
  obtain ⟨M, K⟩ := x
  simp only at hsig hbelow hge ⊢
  have hKpos : 0 < 2 ^ K := Nat.pos_pow_of_pos K (by decide)
  have hD : 0 < 2 ^ K * months := Nat.mul_pos hKpos hmonths
  have hq1 : 1 ≤ M / (2 ^ K * months) := Nat.div_pos hge hD
  have hsplit := Nat.div_add_mod' M (2 ^ K * months)
  have hqD : M / (2 ^ K * months) * (2 ^ K * months) ≤ M := Nat.div_mul_le_self _ _
  have hq53 : M / (2 ^ K * months) < 2 ^ 53 := by
    apply (Nat.div_lt_iff_lt_mul hD).mpr
    calc M < 2 ^ 53 * 2 ^ K := hbelow
      _ ≤ 2 ^ 53 * (2 ^ K * months) :=
        Nat.mul_le_mul_left _ (Nat.le_mul_of_pos_right _ hmonths)
  have hlo : 2 ^ binaryExponent (M / (2 ^ K * months)) ≤ M / (2 ^ K * months) :=
    halvings_le 1024 _ hq1
  have he : binaryExponent (M / (2 ^ K * months)) ≤ 52 := by
    have := (Nat.pow_lt_pow_iff_right (by decide : 1 < 2)).mp (Nat.lt_of_le_of_lt hlo hq53)
    omega
  have hpow : 2 ^ 53 = 2 ^ binaryExponent (M / (2 ^ K * months))
      * (2 * 2 ^ (52 - binaryExponent (M / (2 ^ K * months)))) := by
    rw [← pow_succ', ← pow_add]
    congr 1
    omega
  have hscale : M % (2 ^ K * months) ≠ 0 →
      2 ^ K * months < 2 * 2 ^ (52 - binaryExponent (M / (2 ^ K * months))) := by
    intro hr
    have hlt : M / (2 ^ K * months) * (2 ^ K * months) < 2 ^ 53 := by
      have hrpos : 0 < M % (2 ^ K * months) := Nat.pos_of_ne_zero hr
      omega
    have h1 : 2 ^ binaryExponent (M / (2 ^ K * months)) * (2 ^ K * months)
        ≤ M / (2 ^ K * months) * (2 ^ K * months) := Nat.mul_le_mul_right _ hlo
    have h3 : 2 ^ binaryExponent (M / (2 ^ K * months)) * (2 ^ K * months)
        < 2 ^ binaryExponent (M / (2 ^ K * months))
          * (2 * 2 ^ (52 - binaryExponent (M / (2 ^ K * months)))) := by
      rw [← hpow]
      exact Nat.lt_of_le_of_lt h1 hlt
    exact Nat.lt_of_mul_lt_mul_left h3
  have hkey := ceil_of_rounded_quotient (M / (2 ^ K * months)) (M % (2 ^ K * months))
    (2 ^ K * months) (2 ^ (52 - binaryExponent (M / (2 ^ K * months)))) hD
    (Nat.pos_pow_of_pos _ (by decide)) (Nat.mod_lt _ hD) hscale
  rw [hsplit] at hkey
  unfold Double.divNat roundToDouble Double.ceil
  simp only [he, if_true]
  exact hkey

theorem divNat_covers (x : Double) (months : Nat) (hmonths : 0 < months)
    (hsig : x.significand ≤ 2 ^ 53) (hbelow : x.significand < 2 ^ 53 * 2 ^ x.scale)
    (hge : 2 ^ x.scale * months ≤ x.significand) :
    x.significand ≤ (x.divNat months).ceil * months * 2 ^ x.scale ∧
    (x.divNat months).ceil ≤ 2 ^ 53 := by
  rw [divNat_ceil x months hmonths hsig hbelow hge]
  have hKpos : 0 < 2 ^ x.scale := Nat.pos_pow_of_pos _ (by decide)
  have hD : 0 < 2 ^ x.scale * months := Nat.mul_pos hKpos hmonths
  have hsplit := Nat.div_add_mod' x.significand (2 ^ x.scale * months)
  have hmod := Nat.mod_lt x.significand hD
  have hq53 : x.significand / (2 ^ x.scale * months) < 2 ^ 53 := by
    apply (Nat.div_lt_iff_lt_mul hD).mpr
    calc x.significand < 2 ^ 53 * 2 ^ x.scale := hbelow
      _ ≤ 2 ^ 53 * (2 ^ x.scale * months) :=
        Nat.mul_le_mul_left _ (Nat.le_mul_of_pos_right _ hmonths)
  have hassoc : ∀ r : Nat, r * months * 2 ^ x.scale = r * (2 ^ x.scale * months) := by
    intro r
    ring
  by_cases hr : x.significand % (2 ^ x.scale * months) = 0
  · simp only [hr, if_true]
    rw [hr] at hsplit
    refine ⟨?_, Nat.le_of_lt hq53⟩
    rw [hassoc]
    omega
  · simp only [hr, if_false]
    refine ⟨?_, hq53⟩
    rw [hassoc, Nat.succ_mul]
    omega

theorem handleCalculate_accepts (mode : CalculationMode) (targetAmount : Option Decimal)
    (timeframe : Option Int) (customGoalAmount : Option Decimal) (result : Calculation)
    (hresult : handleCalculate mode targetAmount timeframe customGoalAmount = some result) :
    (∃ typed : Decimal, result.target = roundToDouble typed.digits (10 ^ typed.places)) ∧
    result.target.ltNat MIN_TARGET_AMOUNT = false ∧
    1 ≤ result.months ∧ result.months ≤ 24 ∧
    result.requiredMonthly = (result.target.divNat result.months).ceil := by
  cases mode with
  | flexible_plan =>
    cases htarget : targetAmount with
    | none => simp [handleCalculate, parseFloat, htarget] at hresult
    | some typed =>
      cases timeframe with
      | none => simp [handleCalculate, parseFloat, htarget] at hresult
      | some finalMonths =>
        simp only [handleCalculate, parseFloat, htarget, Option.map_some'] at hresult
        split at hresult
        · exact absurd hresult (by simp)
        · rename_i hvalid
          have hres := Option.some.inj hresult
          subst hres
          refine ⟨⟨typed, rfl⟩, ?_, ?_, ?_, rfl⟩
          · simpa using fun h => hvalid (Or.inr (Or.inl h))
          · show 1 ≤ finalMonths.toNat
            omega
          · show finalMonths.toNat ≤ 24
            omega
  | custom_goal =>
    cases htarget : customGoalAmount with
    | none => simp [handleCalculate, parseFloat, htarget] at hresult
    | some typed =>
      simp only [handleCalculate, parseFloat, htarget, Option.map_some'] at hresult
      split at hresult
      · exact absurd hresult (by simp)
      · rename_i hvalid
        have hres := Option.some.inj hresult
        subst hres
        refine ⟨⟨typed, rfl⟩, ?_, ?_, ?_, rfl⟩
        · simpa using fun h => hvalid (Or.inr h)
        · show 1 ≤ TARGET_MONTHS_SHORT
          decide
        · show TARGET_MONTHS_SHORT ≤ 24
          decide

theorem updatedPlan_step (now : String) (plan : Plan)
    (hsaved : plan.totalSaved * 2 ^ plan.target.scale < plan.target.significand)
    (htarget : plan.target.significand < 2 ^ 53 * 2 ^ plan.target.scale)
    (hmonthly : plan.requiredMonthly ≤ 2 ^ 53) :
    (updatedPlan now plan).target = plan.target ∧
    (updatedPlan now plan).requiredMonthly = plan.requiredMonthly ∧
    ((updatedPlan now plan).isGoalAchieved = true ∨
      ((updatedPlan now plan).isGoalAchieved = false ∧
        (updatedPlan now plan).totalSaved = plan.totalSaved + plan.requiredMonthly ∧
        (plan.totalSaved + plan.requiredMonthly) * 2 ^ plan.target.scale
          < plan.target.significand)) := by
  refine ⟨rfl, rfl, ?_⟩
  have hKpos : 0 < 2 ^ plan.target.scale := Nat.pos_pow_of_pos _ (by decide)
  have htotal : plan.totalSaved < 2 ^ 53 := by
    have h := Nat.lt_trans hsaved htarget
    exact Nat.lt_of_mul_lt_mul_right h
  by_cases hsum : plan.totalSaved + plan.requiredMonthly < 2 ^ 53
  · have hexact : flAdd plan.totalSaved plan.requiredMonthly
        = plan.totalSaved + plan.requiredMonthly := roundWhole_small _ hsum
    by_cases hreach : plan.target.significand
        ≤ (plan.totalSaved + plan.requiredMonthly) * 2 ^ plan.target.scale
    · left
      simp [updatedPlan, Double.leNat, hexact, hreach]
    · right
      refine ⟨by simp [updatedPlan, Double.leNat, hexact, hreach], ?_, Nat.not_le.mp hreach⟩
      simp [updatedPlan, hexact]
  · left
    have hlarge := roundWhole_large (plan.totalSaved + plan.requiredMonthly)
      (Nat.not_lt.mp hsum) (by
        have : (2 : Nat) ^ 54 = 2 ^ 53 + 2 ^ 53 := by norm_num
        omega)
    have hreach : plan.target.significand
        ≤ flAdd plan.totalSaved plan.requiredMonthly * 2 ^ plan.target.scale :=
      Nat.le_trans (Nat.le_of_lt htarget) (Nat.mul_le_mul_right _ hlarge)
    simp [updatedPlan, Double.leNat, hreach]

theorem afterAll_paidInTurn_succ (now : String) (count : Nat) (plan : Plan)
    (hopen : plan.isGoalAchieved = false) :
    SavingsPage.afterAll { planDetails := some plan, timers := [] } (paidInTurn now (count + 1))
      = SavingsPage.afterAll { planDetails := some (updatedPlan now plan), timers := [] }
          (paidInTurn now count) := by
  simp [SavingsPage.afterAll, paidInTurn, SavingsPage.after, handleMakePayment, paymentPrompt,
    hopen]

theorem paid_in_turn_reaches_goal (now : String) (budget : Nat) :
    ∀ plan : Plan, plan.isGoalAchieved = false →
      plan.totalSaved * 2 ^ plan.target.scale < plan.target.significand →
      plan.target.significand < 2 ^ 53 * 2 ^ plan.target.scale →
      plan.requiredMonthly ≤ 2 ^ 53 →
      plan.target.significand
        ≤ (plan.totalSaved + budget * plan.requiredMonthly) * 2 ^ plan.target.scale →
      ∃ count, count ≤ budget ∧
        (SavingsPage.afterAll { planDetails := some plan, timers := [] }
            (paidInTurn now count)).planDetails.map (fun p => p.isGoalAchieved)
          = some true := by
  induction budget with
  | zero =>
    intro plan _ hsaved _ _ hcover
    simp at hcover
    omega
  | succ budget ih =>
    intro plan hopen hsaved htarget hmonthly hcover
    obtain ⟨htarget', hmonthly', hstep⟩ := updatedPlan_step now plan hsaved htarget hmonthly
    rcases hstep with hdone | ⟨hopen', htotal, hbelow⟩
    · refine ⟨1, by omega, ?_⟩
      rw [afterAll_paidInTurn_succ now 0 plan hopen]
      simp [SavingsPage.afterAll, paidInTurn, hdone]
    · have hcover' : (updatedPlan now plan).target.significand
          ≤ ((updatedPlan now plan).totalSaved + budget * (updatedPlan now plan).requiredMonthly)
            * 2 ^ (updatedPlan now plan).target.scale := by
        rw [htarget', htotal, hmonthly']
        have heq : plan.totalSaved + plan.requiredMonthly + budget * plan.requiredMonthly
            = plan.totalSaved + (budget + 1) * plan.requiredMonthly := by ring
        rw [heq]
        exact hcover
      obtain ⟨count, hcount, hachieved⟩ := ih (updatedPlan now plan) hopen'
        (by rw [htotal, htarget']; exact hbelow) (by rw [htarget']; exact htarget)
        (by rw [hmonthly']; exact hmonthly) hcover'
      refine ⟨count + 1, by omega, ?_⟩
      rw [afterAll_paidInTurn_succ now count plan hopen]
      exact hachieved

/-- Where the plan does reach its goal: for every calculation that passes
validation with a target below 2^53 (whole or fractional),
`requiredMonthly × months ≥ target`, and when the payments are made one after
the other (each click answered by its confirmed prompt before the next click)
the plan started from it is marked goal-achieved after at most `months`
payments. -/
theorem payments_in_turn_reach_goal (mode : CalculationMode) (targetAmount : Option Decimal)
    (timeframe : Option Int) (customGoalAmount : Option Decimal) (result : Calculation)
    (now : String)
    (hresult : handleCalculate mode targetAmount timeframe customGoalAmount = some result)
    (hbelow : result.target.ltNat (2 ^ 53) = true) :
    result.target.leNat (result.requiredMonthly * result.months) = true ∧
    ∃ count, count ≤ result.months ∧
      ((handleStartSaving result).afterAll (paidInTurn now count)).planDetails.map
          (fun plan => plan.isGoalAchieved)
        = some true := by
  obtain ⟨⟨typed, htyped⟩, hmin, hmonths1, hmonths24, hmonthly⟩ :=
    handleCalculate_accepts mode targetAmount timeframe customGoalAmount result hresult
  have hKpos : 0 < 2 ^ result.target.scale := Nat.pos_pow_of_pos _ (by decide)
  have hsig : result.target.significand ≤ 2 ^ 53 := by
    rw [htyped] at hbelow ⊢
    exact roundToDouble_significand_le _ _ (Nat.pos_pow_of_pos _ (by decide)) hbelow
  have hvalue : result.target.significand < 2 ^ 53 * 2 ^ result.target.scale := by
    simpa [Double.ltNat] using hbelow
  have hthousand : 1000 * 2 ^ result.target.scale ≤ result.target.significand := by
    simpa [Double.ltNat, MIN_TARGET_AMOUNT] using hmin
  have hge : 2 ^ result.target.scale * result.months ≤ result.target.significand := by
    have h1 : 2 ^ result.target.scale * result.months ≤ 2 ^ result.target.scale * 1000 :=
      Nat.mul_le_mul_left _ (by omega)
    rw [Nat.mul_comm _ 1000] at h1
    exact Nat.le_trans h1 hthousand
  obtain ⟨hcover, hbound⟩ :=
    divNat_covers result.target result.months hmonths1 hsig hvalue hge
  rw [← hmonthly] at hcover hbound
  refine ⟨by simpa [Double.leNat] using hcover, ?_⟩
  apply paid_in_turn_reaches_goal now result.months
      { target := result.target, months := result.months,
        requiredMonthly := result.requiredMonthly, totalSaved := 0,
        lastPaymentDate := none, isGoalAchieved := false } rfl
  · show 0 * 2 ^ result.target.scale < result.target.significand
    omega
  · exact hvalue
  · exact hbound
  · show result.target.significand
        ≤ (0 + result.months * result.requiredMonthly) * 2 ^ result.target.scale
    rw [Nat.zero_add, Nat.mul_comm result.months]
    exact hcover

/-- A target of 10000.50 over 3 months: the monthly amount is 3334, and the
plan is achieved within three payments made one after the other. -/
theorem payments_in_turn_reach_goal_witness :
    (handleCalculate .flexible_plan (some { negative := false, digits := 1000050, places := 2 })
        (some 3) none).map (fun result => (result.months, result.requiredMonthly))
      = some (3, 3334) ∧
    ∀ result, handleCalculate .flexible_plan
        (some { negative := false, digits := 1000050, places := 2 }) (some 3) none
          = some result →
      result.target.leNat (result.requiredMonthly * result.months) = true ∧
      ∃ count, count ≤ result.months ∧
        ((handleStartSaving result).afterAll (paidInTurn "2025-01-01" count)).planDetails.map
            (fun plan => plan.isGoalAchieved)
          = some true :=
  ⟨by decide, fun result hresult =>
    payments_in_turn_reach_goal .flexible_plan _ (some 3) none result "2025-01-01" hresult (by
      have hres : some result = some
          ({ target := roundToDouble 1000050 (10 ^ 2), months := 3,
             requiredMonthly := ((roundToDouble 1000050 (10 ^ 2)).divNat 3).ceil } :
            Calculation) := hresult.symm.trans (by decide)
      rw [Option.some.inj hres]
      decide)⟩

/-- An amount below 1, which the model rounds more coarsely than a double
does, stays below `MIN_TARGET_AMOUNT`: validation rejects it as it rejects the
double. -/
theorem roundToDouble_small (num den : Nat) (hden : 0 < den) (hsmall : num < den) :
    (roundToDouble num den).ltNat MIN_TARGET_AMOUNT = true := by
  have hq : num / den = 0 := Nat.div_eq_of_lt hsmall
  have he : binaryExponent 0 = 0 := by decide
  have hfloor : num * 2 ^ 52 / den < 2 ^ 52 := by
    apply (Nat.div_lt_iff_lt_mul hden).mpr
    rw [Nat.mul_comm (2 ^ 52) den]
    exact Nat.mul_lt_mul_of_pos_right hsmall (by decide)
  have hle := roundHalfEven_le (num * 2 ^ 52) den
  unfold roundToDouble
  simp only [hq, he, Nat.zero_le, if_true, Nat.sub_zero, Double.ltNat, MIN_TARGET_AMOUNT,
    decide_eq_true_eq]
  omega

end Journey
